import Mathlib

/-!
Verification of the `repeat_action` loop-execution engine
(`src/packages/playwright/src/mcp/browser/tools/customTools/actions/repeatAction.ts`).

The engine repeatedly performs one action under a `for` / `while` / `do-while`
discipline, records one evidence entry per completed iteration, and builds a
pass/fail report from the final iteration count.

The embedding is a state-passing translation of the `handle` function.  The two
external collaborators (the Playwright tab's `refLocator` and the locator
methods) are modelled by an oracle environment `Env` indexed by call number;
wall-clock time (`Date.now() - startTime`) is modelled by a `now` field that
advances by an oracle-chosen duration at each collaborator call and by the
literal `sleep` amounts (300 ms in `for` loops, 100 ms otherwise).  The state
additionally carries instrumentation counters (`nActs`, `nConds`,
`nInteractions`, `nLocates`) counting the collaborator calls made so far; the
source has no such counters, but they record exactly which calls the source
would have performed, which several properties are about ("the executor is
never invoked", "exactly k actions are performed").
-/

namespace RepeatAction

/-- The `loop.type` of the input schema: `'for' | 'while' | 'do-while'`. -/
inductive LoopType
  | forL
  | whileL
  | doWhileL
deriving DecidableEq, Repr

/-- The serialized form of a loop type, as it appears in the JSON input/output. -/
def loopTypeString : LoopType → String
  | LoopType.forL => "for"
  | LoopType.whileL => "while"
  | LoopType.doWhileL => "do-while"

/-- The `action.type` enum `'click' | 'hover' | 'fill' | 'press'` (closed enum; the
source's `default: throw` branch for an unsupported action type is
unreachable under this closed embedding). -/
inductive ActionType
  | click
  | hover
  | fill
  | press
deriving DecidableEq, Repr

/-- The `until.assertion.assertionType` enum (closed enum, same remark as `ActionType`). -/
inductive AssertionType
  | toBeVisible
  | toBeHidden
  | toBeEnabled
  | toBeDisabled
deriving DecidableEq, Repr

/-- The `assertion` object inside an `until` condition. -/
structure Assertion where
  assertionType : AssertionType
deriving DecidableEq, Repr

/-- The `until` stop condition of `while` / `do-while` specs. -/
structure StopCondition where
  element : String
  ref : String
  assertion : Assertion
  negate : Bool
deriving DecidableEq, Repr

/-- The action descriptor: element reference, action type, optional `value`
(required only by `fill` and `press`). -/
structure ActionSpec where
  type : ActionType
  ref : String
  element : String
  value : Option String
deriving DecidableEq, Repr

/-- The loop specification.  `iterations` is only meaningful for `for`,
`untilCond` (the source's `until` field — `until` is a Lean keyword) only for
`while`/`do-while`; absence of the required one is a spec error caught by
`handle`'s validation. -/
structure LoopSpec where
  type : LoopType
  iterations : Option Nat
  untilCond : Option StopCondition
deriving DecidableEq, Repr

/-- The optional `limits` object. -/
structure Limits where
  maxIterations : Option Nat
deriving DecidableEq, Repr

/-- The parsed tool parameters `{ loop, action, limits }`. -/
structure Params where
  loop : LoopSpec
  action : ActionSpec
  limits : Option Limits
deriving DecidableEq, Repr

/-- One evidence entry `{ iteration, action, message }` pushed per completed
iteration. -/
structure IterationRecord where
  iteration : Nat
  action : ActionSpec
  message : String
deriving DecidableEq, Repr

/-- The `summary` object of the tool response. -/
structure Summary where
  total : Nat
  passed : Nat
  failed : Nat
  status : String
  evidence : List IterationRecord
deriving DecidableEq, Repr

/-- The single element of the `checks` array of the tool response. -/
structure Check where
  property : String
  operator : String
  expected : String
  actual : Nat
  result : String
deriving DecidableEq, Repr

/-- The tool response (the Report). -/
structure Report where
  action : ActionSpec
  loop : LoopSpec
  summary : Summary
  checks : List Check
deriving DecidableEq, Repr

/-- The error taxonomy: `Error` values thrown by the engine itself
(`specError`) or propagated from the collaborators (`actionError`,
`notFoundError`). -/
inductive Err
  | specError (msg : String)
  | actionError (msg : String)
  | notFoundError (msg : String)
deriving DecidableEq, Repr

/-- Oracle environment for the two collaborators and for wall-clock time.
`actLocate n` / `interact n` give the outcome (`none` = success) of the
`tab.refLocator` call, resp. the locator interaction method call, made by the
`n`-th invocation of `runAction`; `condLocate n` / `condCheck n ty` give the
outcome of the locate, resp. the boolean returned by the assertion method
`ty`, of the `n`-th invocation of `evaluateCondition`.  `actDur n` /
`condDur n` are the wall-clock durations of those invocations, and
`attachedTimeout` is the `ELEMENT_ATTACHED_TIMEOUT` constant (its numeric
value lives outside this file's source, so it stays abstract). -/
structure Env where
  actLocate : Nat → Option Err
  interact : Nat → Option Err
  condLocate : Nat → Option Err
  condCheck : Nat → AssertionType → Bool
  actDur : Nat → Nat
  condDur : Nat → Nat
  attachedTimeout : Nat

/-- The engine's mutable state: the `iteration` counter, the `evidence`
array, elapsed wall-clock time `now` (= `Date.now() - startTime`), and the
instrumentation counters for collaborator calls. -/
structure EngineState where
  iteration : Nat
  evidence : List IterationRecord
  now : Nat
  nActs : Nat
  nConds : Nat
  nInteractions : Nat
  nLocates : Nat
deriving DecidableEq, Repr

/-- The state at `handle` entry: counters zero, no evidence, clock at the
`startTime` origin. -/
def initialState : EngineState :=
  { iteration := 0, evidence := [], now := 0, nActs := 0, nConds := 0,
    nInteractions := 0, nLocates := 0 }

/-- Bookkeeping applied by every `runAction` call before its outcome is
known: one more action call, one more `refLocator` call, time advances by the
call's duration. -/
def bumpAct (env : Env) (s : EngineState) : EngineState :=
  { s with nActs := s.nActs + 1, nLocates := s.nLocates + 1,
           now := s.now + env.actDur s.nActs }

/-- Bookkeeping applied by every `evaluateCondition` call. -/
def bumpCond (env : Env) (s : EngineState) : EngineState :=
  { s with nConds := s.nConds + 1, now := s.now + env.condDur s.nConds }

/-- One locator interaction method call (`click()` / `hover()` /
`fill(value)` / `press(value)`) inside the `n`-th `runAction`: the
interaction counter is bumped and the oracle decides success or an error. -/
def interactStep (env : Env) (n : Nat) (s : EngineState) : EngineState × Option Err :=
  ({ s with nInteractions := s.nInteractions + 1 }, env.interact n)

/-- The source's `runAction`: resolve the locator via `tab.refLocator`
(which may fail), then dispatch on the action type; `fill`/`press` first
check that `value` is present and throw a spec error otherwise, before
touching the interaction method. -/
def runAction (env : Env) (action : ActionSpec) (s : EngineState) : EngineState × Option Err :=
  let n := s.nActs
  let s1 := bumpAct env s
  match env.actLocate n with
  | some e => (s1, some e)
  | none =>
    match action.type with
    | ActionType.click => interactStep env n s1
    | ActionType.hover => interactStep env n s1
    | ActionType.fill =>
      match action.value with
      | none => (s1, some (Err.specError "Fill action requires a value"))
      | some _ => interactStep env n s1
    | ActionType.press =>
      match action.value with
      | none => (s1, some (Err.specError "Press action requires a value"))
      | some _ => interactStep env n s1

/-- The source's `evaluateCondition`: `false` when no `until` condition is
present; otherwise resolve the locator (which may fail), query the assertion
method, and apply `negate`. -/
def evaluateCondition (env : Env) (loop : LoopSpec) (s : EngineState) :
    EngineState × Except Err Bool :=
  match loop.untilCond with
  | none => (s, Except.ok false)
  | some u =>
    let n := s.nConds
    let s1 := bumpCond env s
    match env.condLocate n with
    | some e => (s1, Except.error e)
    | none =>
      let result := env.condCheck n u.assertion.assertionType
      (s1, Except.ok (if u.negate then !result else result))

/-- The record pushed for completed iteration `j`. -/
def recordAt (action : ActionSpec) (msgPrefix : String) (j : Nat) : IterationRecord :=
  { iteration := j, action := action, message := msgPrefix ++ toString j }

/-- The `iteration++; evidence.push(...); await sleep(delay)` sequence ending
every successful loop body. -/
def completeIteration (action : ActionSpec) (msgPrefix : String) (delay : Nat)
    (s : EngineState) : EngineState :=
  { s with iteration := s.iteration + 1,
           evidence := s.evidence ++ [recordAt action msgPrefix (s.iteration + 1)],
           now := s.now + delay }

/-- Message prefix of `for`-loop evidence records. -/
def forMsg : String := "Performed for-loop iteration "

/-- Message prefix of `while`-loop evidence records. -/
def whileMsg : String := "Performed while-loop iteration "

/-- Message prefix of `do-while` evidence records. -/
def doWhileMsg : String := "Performed do-while iteration "

lemma runAction_iteration (env : Env) (action : ActionSpec) (s : EngineState) :
    (runAction env action s).1.iteration = s.iteration := by
  unfold runAction bumpAct interactStep
  cases hl : env.actLocate s.nActs <;> cases ht : action.type <;> cases hv : action.value <;>
    simp [hl, ht, hv]

lemma runAction_evidence (env : Env) (action : ActionSpec) (s : EngineState) :
    (runAction env action s).1.evidence = s.evidence := by
  unfold runAction bumpAct interactStep
  cases hl : env.actLocate s.nActs <;> cases ht : action.type <;> cases hv : action.value <;>
    simp [hl, ht, hv]

lemma evaluateCondition_iteration (env : Env) (loop : LoopSpec) (s : EngineState) :
    (evaluateCondition env loop s).1.iteration = s.iteration := by
  unfold evaluateCondition bumpCond
  cases hu : loop.untilCond with
  | none => rfl
  | some u => cases hl : env.condLocate s.nConds <;> simp [hl]

lemma evaluateCondition_evidence (env : Env) (loop : LoopSpec) (s : EngineState) :
    (evaluateCondition env loop s).1.evidence = s.evidence := by
  unfold evaluateCondition bumpCond
  cases hu : loop.untilCond with
  | none => rfl
  | some u => cases hl : env.condLocate s.nConds <;> simp [hl]

@[simp] lemma completeIteration_iteration (action : ActionSpec) (p : String) (d : Nat)
    (s : EngineState) : (completeIteration action p d s).iteration = s.iteration + 1 := rfl

/-- The `for` branch of `loopStart`: `while (iteration < loop.iterations!)`. -/
def forLoop (env : Env) (action : ActionSpec) (iterations : Nat) (s : EngineState) :
    EngineState × Option Err :=
  if s.iteration < iterations then
    match h : runAction env action s with
    | (s1, some e) => (s1, some e)
    | (s1, none) => forLoop env action iterations (completeIteration action forMsg 300 s1)
  else (s, none)
termination_by iterations - s.iteration
decreasing_by
  have h1 : s1.iteration = s.iteration := by
    have := runAction_iteration env action s
    rw [h] at this
    exact this
  simp only [completeIteration_iteration, h1]
  omega

/-- The `while` branch of `loopStart`: guard `iteration < maxIterations`,
evaluate the condition, perform the action, complete the iteration, then
break if elapsed time exceeds the attached timeout. -/
def whileLoop (env : Env) (action : ActionSpec) (loop : LoopSpec) (maxIterations : Nat)
    (s : EngineState) : EngineState × Option Err :=
  if s.iteration < maxIterations then
    match hc : evaluateCondition env loop s with
    | (s1, Except.error e) => (s1, some e)
    | (s1, Except.ok true) => (s1, none)
    | (s1, Except.ok false) =>
      match ha : runAction env action s1 with
      | (s2, some e) => (s2, some e)
      | (s2, none) =>
        let s4 := completeIteration action whileMsg 100 s2
        if s4.now > env.attachedTimeout then (s4, none)
        else whileLoop env action loop maxIterations s4
  else (s, none)
termination_by maxIterations - s.iteration
decreasing_by
  have h1 : s1.iteration = s.iteration := by
    have := evaluateCondition_iteration env loop s
    rw [hc] at this
    exact this
  have h2 : s2.iteration = s1.iteration := by
    have := runAction_iteration env action s1
    rw [ha] at this
    exact this
  simp only [completeIteration_iteration, h2, h1]
  omega

/-- The `do-while` branch of `loopStart`: perform the action, complete the
iteration, evaluate the condition, then break on condition met, iteration cap
or elapsed timeout. -/
def doWhileLoop (env : Env) (action : ActionSpec) (loop : LoopSpec) (maxIterations : Nat)
    (s : EngineState) : EngineState × Option Err :=
  match ha : runAction env action s with
  | (s1, some e) => (s1, some e)
  | (s1, none) =>
    match hc : evaluateCondition env loop (completeIteration action doWhileMsg 100 s1) with
    | (s4, Except.error e) => (s4, some e)
    | (s4, Except.ok true) => (s4, none)
    | (s4, Except.ok false) =>
      if s4.iteration ≥ maxIterations then (s4, none)
      else if s4.now > env.attachedTimeout then (s4, none)
      else doWhileLoop env action loop maxIterations s4
termination_by maxIterations - s.iteration
decreasing_by
  have h1 : s1.iteration = s.iteration := by
    have := runAction_iteration env action s
    rw [ha] at this
    exact this
  have h4 : s4.iteration = s.iteration + 1 := by
    have := evaluateCondition_iteration env loop (completeIteration action doWhileMsg 100 s1)
    rw [hc] at this
    simp only [completeIteration_iteration, h1] at this
    exact this
  simp only [h4]
  omega

/-- The source's `loopStart`, dispatching on `loop.type`.  In the `for`
branch the source reads `loop.iterations!` after validation has ensured it is
a number; `getD 0` renders the (unreachable-after-validation) missing case. -/
def loopStart (env : Env) (loop : LoopSpec) (action : ActionSpec) (maxIterations : Nat)
    (s : EngineState) : EngineState × Option Err :=
  match loop.type with
  | LoopType.forL => forLoop env action (loop.iterations.getD 0) s
  | LoopType.whileL => whileLoop env action loop maxIterations s
  | LoopType.doWhileL => doWhileLoop env action loop maxIterations s

/-- JavaScript template-string rendering of `loop.iterations` (an absent
field prints as `undefined`). -/
def tsShowIterations : Option Nat → String
  | some n => toString n
  | none => "undefined"

/-- The `toolResponse` object built after the loop completes. -/
def buildReport (loop : LoopSpec) (action : ActionSpec) (iteration : Nat)
    (evidence : List IterationRecord) : Report :=
  { action := action
    loop := loop
    summary :=
      { total := iteration
        passed := if iteration > 0 then 1 else 0
        failed := if iteration > 0 then 0 else 1
        status := if iteration > 0 then "pass" else "fail"
        evidence := evidence }
    checks :=
      [{ property := "action-execution"
         operator := loopTypeString loop.type
         expected :=
           if loop.type = LoopType.forL then tsShowIterations loop.iterations ++ " iterations"
           else "condition met or maxIterations reached"
         actual := iteration
         result := if iteration > 0 then "pass" else "fail" }] }

/-- The source's `handle`, returning both the final engine state (the values
of the mutable `iteration` / `evidence` variables and the instrumentation
counters at exit) and the outcome: a thrown error or the built Report. -/
def handleRun (env : Env) (p : Params) : EngineState × Except Err Report :=
  let maxIterations := (p.limits.bind Limits.maxIterations).getD 20
  if p.loop.type = LoopType.forL ∧ p.loop.iterations = none then
    (initialState,
      Except.error (Err.specError
        "repeat_action: \"iterations\" is required when loop.type is \"for\""))
  else if (p.loop.type = LoopType.whileL ∨ p.loop.type = LoopType.doWhileL) ∧
      p.loop.untilCond = none then
    (initialState,
      Except.error (Err.specError
        ("repeat_action: \"until\" condition is required when loop.type is \"" ++
          loopTypeString p.loop.type ++ "\"")))
  else
    match loopStart env p.loop p.action maxIterations initialState with
    | (s, some e) => (s, Except.error e)
    | (s, none) => (s, Except.ok (buildReport p.loop p.action s.iteration s.evidence))

/-- The caller-visible outcome of one invocation. -/
def handle (env : Env) (p : Params) : Except Err Report :=
  (handleRun env p).2

/-- The value produced by the `n`-th `evaluateCondition` call for stop
condition `u`: a propagated locate error, or the (possibly negated) boolean
of the assertion method. -/
def condOutcome (env : Env) (u : StopCondition) (n : Nat) : Except Err Bool :=
  match env.condLocate n with
  | some e => Except.error e
  | none =>
    Except.ok (if u.negate then !(env.condCheck n u.assertion.assertionType)
               else env.condCheck n u.assertion.assertionType)

/-- Predicate for "every action execution succeeds": every locate and every interaction
call of the Action Executor succeeds, and the action is not a `fill`/`press`
with a missing `value` (which would make `runAction` throw). -/
def actionOk (env : Env) (action : ActionSpec) : Prop :=
  (∀ n, env.actLocate n = none) ∧ (∀ n, env.interact n = none) ∧
  ((action.type = ActionType.fill ∨ action.type = ActionType.press) → action.value ≠ none)

/-- The state after one fully successful `runAction` call. -/
def actOkState (env : Env) (s : EngineState) : EngineState :=
  { bumpAct env s with nInteractions := (bumpAct env s).nInteractions + 1 }

/-- Cycle-start states of the source's `while (iteration < maxIterations)`
loop: `t` is reachable as the state at the top of some cycle of the run
started at `s`.  `next` retraces one full successful loop body: guard
passed, condition evaluated to `false`, action performed, iteration
completed, and the bottom `Date.now() - startTime > ELEMENT_ATTACHED_TIMEOUT`
break not taken. -/
inductive whileCycleStart (env : Env) (action : ActionSpec) (loop : LoopSpec)
    (maxIterations : Nat) : EngineState → EngineState → Prop
  | init (s : EngineState) : whileCycleStart env action loop maxIterations s s
  | next (s t t1 t2 : EngineState)
      (hprev : whileCycleStart env action loop maxIterations s t)
      (hguard : t.iteration < maxIterations)
      (hcond : evaluateCondition env loop t = (t1, Except.ok false))
      (hact : runAction env action t1 = (t2, none))
      (htime : ¬ (completeIteration action whileMsg 100 t2).now > env.attachedTimeout) :
      whileCycleStart env action loop maxIterations s
        (completeIteration action whileMsg 100 t2)

/-- Parameter builder used by the concrete fixtures. -/
def mkParams (t : LoopType) (its : Option Nat) (u : Option StopCondition)
    (action : ActionSpec) (m : Option Nat) : Params :=
  { loop := { type := t, iterations := its, untilCond := u },
    action := action, limits := some { maxIterations := m } }

/-- A click action fixture. -/
def clickAction : ActionSpec :=
  { type := ActionType.click, ref := "e7", element := "Load more button", value := none }

/-- A fill action with a missing `value`. -/
def fillNoValue : ActionSpec :=
  { type := ActionType.fill, ref := "e9", element := "Search box", value := none }

/-- A visibility stop condition fixture (no negation). -/
def visibleCond : StopCondition :=
  { element := "Done banner", ref := "e3",
    assertion := { assertionType := AssertionType.toBeVisible }, negate := false }

/-- Environment where every collaborator call succeeds instantly and the
condition's assertion is always `false` (condition never met). -/
def envCondFalse : Env :=
  { actLocate := fun _ => none, interact := fun _ => none,
    condLocate := fun _ => none, condCheck := fun _ _ => false,
    actDur := fun _ => 0, condDur := fun _ => 0, attachedTimeout := 10000 }

/-- Environment where every collaborator call succeeds instantly and the
condition's assertion is always `true` (condition met from the start). -/
def envCondTrue : Env :=
  { envCondFalse with condCheck := fun _ _ => true }

/-- Environment where the second action's locate fails (index 1), all other
collaborator calls succeed. -/
def envActFailAt1 : Env :=
  { envCondFalse with
    actLocate := fun n => if n = 1 then some (Err.notFoundError "element not found") else none }

/-- Environment where the second condition evaluation's locate fails
(index 1), all other collaborator calls succeed. -/
def envCondFailAt1 : Env :=
  { envCondFalse with
    condLocate := fun n => if n = 1 then some (Err.notFoundError "ref not resolved") else none }

/-- Environment where every locate succeeds but every locator interaction
method fails with an `ActionError` (element not interactable). -/
def envInteractFail : Env :=
  { envCondFalse with interact := fun _ => some (Err.actionError "element not interactable") }

/-- Environment where every Condition Evaluator locate fails with a
`NotFoundError`, while the Action Executor always succeeds. -/
def envCondLocFail : Env :=
  { envCondFalse with condLocate := fun _ => some (Err.notFoundError "ref not resolved") }

lemma evaluateCondition_eq (env : Env) (loop : LoopSpec) (s : EngineState)
    (u : StopCondition) (hu : loop.untilCond = some u) :
    evaluateCondition env loop s = (bumpCond env s, condOutcome env u s.nConds) := by
  unfold evaluateCondition condOutcome
  rw [hu]
  cases hl : env.condLocate s.nConds <;> simp [hl]

lemma runAction_ok (env : Env) (action : ActionSpec) (s : EngineState)
    (hok : actionOk env action) :
    runAction env action s = (actOkState env s, none) := by
  obtain ⟨h1, h2, h3⟩ := hok
  cases ht : action.type
  case click => simp [runAction, interactStep, actOkState, bumpAct, h1, h2, ht]
  case hover => simp [runAction, interactStep, actOkState, bumpAct, h1, h2, ht]
  case fill =>
    cases hv : action.value with
    | none => exact absurd hv (h3 (Or.inl ht))
    | some v => simp [runAction, interactStep, actOkState, bumpAct, h1, h2, ht, hv]
  case press =>
    cases hv : action.value with
    | none => exact absurd hv (h3 (Or.inr ht))
    | some v => simp [runAction, interactStep, actOkState, bumpAct, h1, h2, ht, hv]

@[simp] lemma actOkState_iteration (env : Env) (s : EngineState) :
    (actOkState env s).iteration = s.iteration := rfl

@[simp] lemma actOkState_evidence (env : Env) (s : EngineState) :
    (actOkState env s).evidence = s.evidence := rfl

@[simp] lemma actOkState_nActs (env : Env) (s : EngineState) :
    (actOkState env s).nActs = s.nActs + 1 := rfl

@[simp] lemma actOkState_nConds (env : Env) (s : EngineState) :
    (actOkState env s).nConds = s.nConds := rfl

@[simp] lemma actOkState_now (env : Env) (s : EngineState) :
    (actOkState env s).now = s.now + env.actDur s.nActs := rfl

@[simp] lemma bumpCond_iteration (env : Env) (s : EngineState) :
    (bumpCond env s).iteration = s.iteration := rfl

@[simp] lemma bumpCond_evidence (env : Env) (s : EngineState) :
    (bumpCond env s).evidence = s.evidence := rfl

@[simp] lemma bumpCond_nActs (env : Env) (s : EngineState) :
    (bumpCond env s).nActs = s.nActs := rfl

@[simp] lemma bumpCond_nConds (env : Env) (s : EngineState) :
    (bumpCond env s).nConds = s.nConds + 1 := rfl

@[simp] lemma bumpCond_now (env : Env) (s : EngineState) :
    (bumpCond env s).now = s.now + env.condDur s.nConds := rfl

@[simp] lemma completeIteration_evidence (action : ActionSpec) (p : String) (d : Nat)
    (s : EngineState) :
    (completeIteration action p d s).evidence
      = s.evidence ++ [recordAt action p (s.iteration + 1)] := rfl

@[simp] lemma completeIteration_now (action : ActionSpec) (p : String) (d : Nat)
    (s : EngineState) : (completeIteration action p d s).now = s.now + d := rfl

@[simp] lemma completeIteration_nActs (action : ActionSpec) (p : String) (d : Nat)
    (s : EngineState) : (completeIteration action p d s).nActs = s.nActs := rfl

@[simp] lemma completeIteration_nConds (action : ActionSpec) (p : String) (d : Nat)
    (s : EngineState) : (completeIteration action p d s).nConds = s.nConds := rfl

lemma forLoop_stop (env : Env) (action : ActionSpec) (iterations : Nat) (s : EngineState)
    (h : ¬ s.iteration < iterations) : forLoop env action iterations s = (s, none) := by
  unfold forLoop
  rw [if_neg h]

lemma forLoop_step_ok (env : Env) (action : ActionSpec) (iterations : Nat) (s : EngineState)
    (hok : actionOk env action) (h : s.iteration < iterations) :
    forLoop env action iterations s =
      forLoop env action iterations (completeIteration action forMsg 300 (actOkState env s)) := by
  conv_lhs => unfold forLoop
  rw [if_pos h]
  split
  next s1 e heq => rw [runAction_ok env action s hok] at heq; simp at heq
  next s1 heq =>
    rw [runAction_ok env action s hok] at heq
    injection heq with he1 he2
    subst he1
    rfl

lemma forLoop_step_err (env : Env) (action : ActionSpec) (iterations : Nat)
    (s s1 : EngineState) (e : Err)
    (hrun : runAction env action s = (s1, some e)) (h : s.iteration < iterations) :
    forLoop env action iterations s = (s1, some e) := by
  conv_lhs => unfold forLoop
  rw [if_pos h]
  split
  next s1' e' heq =>
    rw [hrun] at heq
    injection heq with he1 he2
    injection he2 with he2
    subst he1
    subst he2
    rfl
  next s1' heq => rw [hrun] at heq; simp at heq

lemma whileLoop_stop (env : Env) (action : ActionSpec) (loop : LoopSpec) (m : Nat)
    (s : EngineState) (h : ¬ s.iteration < m) :
    whileLoop env action loop m s = (s, none) := by
  unfold whileLoop
  rw [if_neg h]

lemma whileLoop_condError (env : Env) (action : ActionSpec) (loop : LoopSpec) (m : Nat)
    (s s1 : EngineState) (e : Err) (h : s.iteration < m)
    (hc : evaluateCondition env loop s = (s1, Except.error e)) :
    whileLoop env action loop m s = (s1, some e) := by
  conv_lhs => unfold whileLoop
  rw [if_pos h]
  split
  next s1' e' heq =>
    rw [hc] at heq
    injection heq with he1 he2
    injection he2 with he2
    subst he1; subst he2
    rfl
  next s1' heq => rw [hc] at heq; simp at heq
  next s1' heq => rw [hc] at heq; simp at heq

lemma whileLoop_condTrue (env : Env) (action : ActionSpec) (loop : LoopSpec) (m : Nat)
    (s s1 : EngineState) (h : s.iteration < m)
    (hc : evaluateCondition env loop s = (s1, Except.ok true)) :
    whileLoop env action loop m s = (s1, none) := by
  conv_lhs => unfold whileLoop
  rw [if_pos h]
  split
  next s1' e' heq => rw [hc] at heq; simp at heq
  next s1' heq =>
    rw [hc] at heq
    injection heq with he1 he2
    subst he1
    rfl
  next s1' heq => rw [hc] at heq; simp at heq

lemma whileLoop_step_ok (env : Env) (action : ActionSpec) (loop : LoopSpec) (m : Nat)
    (s s1 : EngineState) (h : s.iteration < m)
    (hc : evaluateCondition env loop s = (s1, Except.ok false))
    (hok : actionOk env action) :
    whileLoop env action loop m s =
      (if (completeIteration action whileMsg 100 (actOkState env s1)).now > env.attachedTimeout
       then (completeIteration action whileMsg 100 (actOkState env s1), none)
       else whileLoop env action loop m
         (completeIteration action whileMsg 100 (actOkState env s1))) := by
  conv_lhs => unfold whileLoop
  rw [if_pos h]
  split
  next s1' e' heq => rw [hc] at heq; simp at heq
  next s1' heq => rw [hc] at heq; simp at heq
  next s1' heq =>
    rw [hc] at heq
    injection heq with he1 he2
    subst he1
    split
    next s2 e2 heq2 => rw [runAction_ok env action s1 hok] at heq2; simp at heq2
    next s2 heq2 =>
      rw [runAction_ok env action s1 hok] at heq2
      injection heq2 with hf1 hf2
      subst hf1
      rfl

lemma whileLoop_step_actErr (env : Env) (action : ActionSpec) (loop : LoopSpec) (m : Nat)
    (s s1 s2 : EngineState) (e : Err) (h : s.iteration < m)
    (hc : evaluateCondition env loop s = (s1, Except.ok false))
    (ha : runAction env action s1 = (s2, some e)) :
    whileLoop env action loop m s = (s2, some e) := by
  conv_lhs => unfold whileLoop
  rw [if_pos h]
  split
  next s1' e' heq => rw [hc] at heq; simp at heq
  next s1' heq => rw [hc] at heq; simp at heq
  next s1' heq =>
    rw [hc] at heq
    injection heq with he1 he2
    subst he1
    split
    next s2' e2 heq2 =>
      rw [ha] at heq2
      injection heq2 with hf1 hf2
      injection hf2 with hf2
      subst hf1; subst hf2
      rfl
    next s2' heq2 => rw [ha] at heq2; simp at heq2

lemma doWhileLoop_actErr (env : Env) (action : ActionSpec) (loop : LoopSpec) (m : Nat)
    (s s1 : EngineState) (e : Err)
    (ha : runAction env action s = (s1, some e)) :
    doWhileLoop env action loop m s = (s1, some e) := by
  conv_lhs => unfold doWhileLoop
  split
  next s1' e' heq =>
    rw [ha] at heq
    injection heq with he1 he2
    injection he2 with he2
    subst he1; subst he2
    rfl
  next s1' heq => rw [ha] at heq; simp at heq

lemma doWhileLoop_step_ok (env : Env) (action : ActionSpec) (loop : LoopSpec) (m : Nat)
    (s s4 : EngineState) (b : Bool) (hok : actionOk env action)
    (hc : evaluateCondition env loop (completeIteration action doWhileMsg 100 (actOkState env s))
            = (s4, Except.ok b)) :
    doWhileLoop env action loop m s =
      (if b then (s4, none)
       else if s4.iteration ≥ m then (s4, none)
       else if s4.now > env.attachedTimeout then (s4, none)
       else doWhileLoop env action loop m s4) := by
  conv_lhs => unfold doWhileLoop
  split
  next s1' e' heq => rw [runAction_ok env action s hok] at heq; simp at heq
  next s1' heq =>
    rw [runAction_ok env action s hok] at heq
    injection heq with he1 he2
    subst he1
    cases b with
    | true =>
      split
      next s4' e4 heq4 => rw [hc] at heq4; simp at heq4
      next s4' heq4 =>
        rw [hc] at heq4
        injection heq4 with hf1 hf2
        subst hf1
        simp
      next s4' heq4 => rw [hc] at heq4; simp at heq4
    | false =>
      split
      next s4' e4 heq4 => rw [hc] at heq4; simp at heq4
      next s4' heq4 => rw [hc] at heq4; simp at heq4
      next s4' heq4 =>
        rw [hc] at heq4
        injection heq4 with hf1 hf2
        subst hf1
        simp

lemma doWhileLoop_condErr (env : Env) (action : ActionSpec) (loop : LoopSpec) (m : Nat)
    (s s4 : EngineState) (e : Err) (hok : actionOk env action)
    (hc : evaluateCondition env loop (completeIteration action doWhileMsg 100 (actOkState env s))
            = (s4, Except.error e)) :
    doWhileLoop env action loop m s = (s4, some e) := by
  conv_lhs => unfold doWhileLoop
  split
  next s1' e' heq => rw [runAction_ok env action s hok] at heq; simp at heq
  next s1' heq =>
    rw [runAction_ok env action s hok] at heq
    injection heq with he1 he2
    subst he1
    split
    next s4' e4 heq4 =>
      rw [hc] at heq4
      injection heq4 with hf1 hf2
      injection hf2 with hf2
      subst hf1; subst hf2
      rfl
    next s4' heq4 => rw [hc] at heq4; simp at heq4
    next s4' heq4 => rw [hc] at heq4; simp at heq4

/-- A `for` loop in which every action succeeds runs from any state below the
target count straight to the target count, appending one record per
iteration. -/
lemma forLoop_ok_run (env : Env) (action : ActionSpec) (iterations : Nat)
    (hok : actionOk env action) :
    ∀ d s, iterations - s.iteration = d → s.iteration ≤ iterations →
      ∃ s', forLoop env action iterations s = (s', none) ∧
        s'.iteration = iterations ∧
        s'.evidence = s.evidence ++
          (List.range' (s.iteration + 1) (iterations - s.iteration)).map
            (recordAt action forMsg) ∧
        s'.nActs = s.nActs + (iterations - s.iteration) := by
  intro d
  induction d with
  | zero =>
    intro s hd hle
    have h : ¬ s.iteration < iterations := by omega
    have hit : s.iteration = iterations := by omega
    refine ⟨s, forLoop_stop env action iterations s h, hit, ?_, ?_⟩
    · rw [hd]; simp
    · omega
  | succ d ih =>
    intro s hd hle
    have h : s.iteration < iterations := by omega
    rw [forLoop_step_ok env action iterations s hok h]
    obtain ⟨s', hrun, hit, hev, hacts⟩ :=
      ih (completeIteration action forMsg 300 (actOkState env s)) (by simp; omega) (by simp; omega)
    refine ⟨s', hrun, hit, ?_, ?_⟩
    · rw [hev]
      have hk : iterations - s.iteration = (iterations - (s.iteration + 1)) + 1 := by omega
      rw [hk, List.range'_succ]
      simp [List.append_assoc]
    · rw [hacts]
      simp
      omega

/-- Evaluation of `handleRun` on a validated `for` spec is the `for` loop's outcome. -/
lemma handleRun_for (env : Env) (p : Params) (k : Nat)
    (htype : p.loop.type = LoopType.forL) (hits : p.loop.iterations = some k) :
    handleRun env p =
      match forLoop env p.action k initialState with
      | (s, some e) => (s, Except.error e)
      | (s, none) => (s, Except.ok (buildReport p.loop p.action s.iteration s.evidence)) := by
  unfold handleRun loopStart
  rw [if_neg (by simp [hits]), if_neg (by simp [htype])]
  rw [htype, hits]
  rfl

/-- Evaluation of `handleRun` on a validated `while` spec is the `while` loop's outcome at
the effective `maxIterations`. -/
lemma handleRun_while (env : Env) (p : Params) (u : StopCondition)
    (htype : p.loop.type = LoopType.whileL) (hu : p.loop.untilCond = some u) :
    handleRun env p =
      match whileLoop env p.action p.loop ((p.limits.bind Limits.maxIterations).getD 20)
          initialState with
      | (s, some e) => (s, Except.error e)
      | (s, none) => (s, Except.ok (buildReport p.loop p.action s.iteration s.evidence)) := by
  unfold handleRun loopStart
  rw [if_neg (by simp [htype]), if_neg (by simp [hu])]
  rw [htype]

/-- Evaluation of `handleRun` on a validated `do-while` spec is the `do-while` loop's
outcome at the effective `maxIterations`. -/
lemma handleRun_doWhile (env : Env) (p : Params) (u : StopCondition)
    (htype : p.loop.type = LoopType.doWhileL) (hu : p.loop.untilCond = some u) :
    handleRun env p =
      match doWhileLoop env p.action p.loop ((p.limits.bind Limits.maxIterations).getD 20)
          initialState with
      | (s, some e) => (s, Except.error e)
      | (s, none) => (s, Except.ok (buildReport p.loop p.action s.iteration s.evidence)) := by
  unfold handleRun loopStart
  rw [if_neg (by simp [htype]), if_neg (by simp [hu])]
  rw [htype]

@[simp] lemma initialState_iteration : initialState.iteration = 0 := rfl

@[simp] lemma initialState_evidence : initialState.evidence = [] := rfl

@[simp] lemma initialState_now : initialState.now = 0 := rfl

@[simp] lemma initialState_nActs : initialState.nActs = 0 := rfl

@[simp] lemma initialState_nConds : initialState.nConds = 0 := rfl

@[simp] lemma recordAt_iteration (action : ActionSpec) (p : String) (j : Nat) :
    (recordAt action p j).iteration = j := rfl

/-- C1: a valid `for` spec with `iterations = k ≥ 1` whose actions all
succeed performs exactly `k` actions, produces exactly `k` records numbered
`1..k` in order, and reports `status = 'pass'`. -/
theorem c1_for_spec_runs_exactly_k (env : Env) (p : Params) (k : Nat)
    (htype : p.loop.type = LoopType.forL) (hits : p.loop.iterations = some k)
    (hk : 1 ≤ k) (hok : actionOk env p.action) :
    ∃ s r, handleRun env p = (s, Except.ok r) ∧
      s.nActs = k ∧
      r.summary.evidence.map IterationRecord.iteration = List.range' 1 k ∧
      r.summary.evidence.length = k ∧
      r.summary.total = k ∧
      r.summary.status = "pass" := by
  obtain ⟨s', hrun, hit, hev, hacts⟩ :=
    forLoop_ok_run env p.action k hok (k - initialState.iteration) initialState rfl (by simp)
  rw [handleRun_for env p k htype hits, hrun]
  refine ⟨s', buildReport p.loop p.action s'.iteration s'.evidence, rfl, by simpa using hacts,
    ?_, ?_, ?_, ?_⟩
  · show s'.evidence.map IterationRecord.iteration = List.range' 1 k
    rw [hev]
    simp only [initialState_evidence, initialState_iteration, List.nil_append, Nat.sub_zero,
      Nat.zero_add, List.map_map]
    have hcmp : IterationRecord.iteration ∘ recordAt p.action forMsg = id := by funext j; rfl
    rw [hcmp, List.map_id]
  · show s'.evidence.length = k
    rw [hev]; simp
  · exact hit
  · show (if s'.iteration > 0 then "pass" else "fail") = "pass"
    rw [hit, if_pos (by omega)]

/-- Witness for C1 at `k = 3` with a click action and an all-success
environment. -/
theorem c1_for_spec_runs_exactly_k_witness :
    actionOk envCondFalse clickAction ∧
    (∃ s r, handleRun envCondFalse (mkParams LoopType.forL (some 3) none clickAction none)
        = (s, Except.ok r) ∧
      s.nActs = 3 ∧
      r.summary.evidence.map IterationRecord.iteration = List.range' 1 3 ∧
      r.summary.evidence.length = 3 ∧
      r.summary.total = 3 ∧
      r.summary.status = "pass") := by
  have hok : actionOk envCondFalse clickAction :=
    ⟨fun _ => rfl, fun _ => rfl, by simp [clickAction]⟩
  exact ⟨hok, c1_for_spec_runs_exactly_k envCondFalse
    (mkParams LoopType.forL (some 3) none clickAction none) 3 rfl rfl (by omega) hok⟩

@[simp] lemma buildReport_total (loop : LoopSpec) (action : ActionSpec) (it : Nat)
    (ev : List IterationRecord) : (buildReport loop action it ev).summary.total = it := rfl

@[simp] lemma buildReport_status (loop : LoopSpec) (action : ActionSpec) (it : Nat)
    (ev : List IterationRecord) :
    (buildReport loop action it ev).summary.status = if it > 0 then "pass" else "fail" := rfl

@[simp] lemma buildReport_evidence (loop : LoopSpec) (action : ActionSpec) (it : Nat)
    (ev : List IterationRecord) : (buildReport loop action it ev).summary.evidence = ev := rfl

/-- C2: whenever an invocation completes without an error, `status = 'pass'`
iff the final iteration count is positive (so a `for` spec with
`iterations = 0` reports `'fail'`), and the single check has the
discipline-dependent `expected` string and `actual` = the final count. -/
theorem c2_verdict_and_check (env : Env) (p : Params) (r : Report)
    (h : handle env p = Except.ok r) :
    (r.summary.status = "pass" ↔ 0 < r.summary.total) ∧
    r.checks = [{ property := "action-execution",
                  operator := loopTypeString p.loop.type,
                  expected := if p.loop.type = LoopType.forL
                    then tsShowIterations p.loop.iterations ++ " iterations"
                    else "condition met or maxIterations reached",
                  actual := r.summary.total,
                  result := r.summary.status }] ∧
    (p.loop.type = LoopType.forL → p.loop.iterations = some 0 →
      r.summary.status = "fail" ∧ r.summary.evidence = []) := by
  unfold handle handleRun at h
  by_cases h1 : p.loop.type = LoopType.forL ∧ p.loop.iterations = none
  · rw [if_pos h1] at h; simp at h
  · rw [if_neg h1] at h
    by_cases h2 : (p.loop.type = LoopType.whileL ∨ p.loop.type = LoopType.doWhileL) ∧
        p.loop.untilCond = none
    · rw [if_pos h2] at h; simp at h
    · rw [if_neg h2] at h
      rcases hls : loopStart env p.loop p.action
          ((p.limits.bind Limits.maxIterations).getD 20) initialState with ⟨s, e⟩
      rw [hls] at h
      cases e with
      | some e => simp at h
      | none =>
        replace h : Except.ok (buildReport p.loop p.action s.iteration s.evidence)
            = Except.ok r := h
        injection h with h
        subst h
        refine ⟨?_, rfl, ?_⟩
        · by_cases hz : s.iteration > 0
          · rw [buildReport_status, if_pos hz]
            simp [hz]
          · rw [buildReport_total, buildReport_status, if_neg hz]
            constructor
            · intro hfp; exact absurd hfp (by decide)
            · intro hl; exact absurd hl hz
        · intro htype hits
          unfold loopStart at hls
          rw [htype, hits] at hls
          replace hls : forLoop env p.action 0 initialState = (s, none) := hls
          rw [forLoop_stop env p.action 0 initialState (by simp)] at hls
          injection hls with hs he
          subst hs
          constructor
          · rw [buildReport_status]
            simp
          · rw [buildReport_evidence]
            rfl

/-- Witness for C2: a `for` spec with `iterations = 0` completes without an
error, reports `fail`, and satisfies the verdict equivalence. -/
theorem c2_verdict_and_check_witness :
    ∃ r, handle envCondFalse (mkParams LoopType.forL (some 0) none clickAction none)
        = Except.ok r ∧
      (r.summary.status = "pass" ↔ 0 < r.summary.total) ∧
      r.summary.status = "fail" := by
  have hloop : forLoop envCondFalse clickAction 0 initialState = (initialState, none) :=
    forLoop_stop _ _ _ _ (by simp)
  have h : handle envCondFalse (mkParams LoopType.forL (some 0) none clickAction none)
      = Except.ok (buildReport (mkParams LoopType.forL (some 0) none clickAction none).loop
          clickAction initialState.iteration initialState.evidence) := by
    unfold handle
    rw [handleRun_for envCondFalse (mkParams LoopType.forL (some 0) none clickAction none) 0
      rfl rfl]
    simp only [mkParams]
    rw [hloop]
  refine ⟨_, h, (c2_verdict_and_check _ _ _ h).1, ?_⟩
  exact ((c2_verdict_and_check _ _ _ h).2.2 rfl rfl).1

/-- A `while` loop whose condition never becomes true, under instantly
succeeding collaborators and a timeout of at least `100 * m`, runs from any
state below the cap straight to the cap. -/
lemma whileLoop_ok_run (env : Env) (action : ActionSpec) (loop : LoopSpec)
    (u : StopCondition) (m : Nat)
    (hok : actionOk env action) (hu : loop.untilCond = some u)
    (hcond : ∀ n, condOutcome env u n = Except.ok false)
    (had : ∀ n, env.actDur n = 0) (hcd : ∀ n, env.condDur n = 0)
    (htmo : 100 * m ≤ env.attachedTimeout) :
    ∀ d s, m - s.iteration = d → s.iteration ≤ m → s.now = 100 * s.iteration →
      ∃ s', whileLoop env action loop m s = (s', none) ∧
        s'.iteration = m ∧
        s'.evidence = s.evidence ++
          (List.range' (s.iteration + 1) (m - s.iteration)).map (recordAt action whileMsg) ∧
        s'.nActs = s.nActs + (m - s.iteration) ∧
        s'.nConds = s.nConds + (m - s.iteration) := by
  intro d
  induction d with
  | zero =>
    intro s hd hle hnow
    have h : ¬ s.iteration < m := by omega
    refine ⟨s, whileLoop_stop env action loop m s h, by omega, ?_, by omega, by omega⟩
    rw [hd]; simp
  | succ d ih =>
    intro s hd hle hnow
    have h : s.iteration < m := by omega
    have hc := evaluateCondition_eq env loop s u hu
    rw [hcond s.nConds] at hc
    rw [whileLoop_step_ok env action loop m s (bumpCond env s) h hc hok]
    have hnow' : (completeIteration action whileMsg 100 (actOkState env (bumpCond env s))).now
        = 100 * (s.iteration + 1) := by
      simp [had, hcd, hnow]
      ring
    rw [if_neg (by rw [hnow']; omega)]
    obtain ⟨s', hrun, hit, hev, hacts, hconds⟩ :=
      ih (completeIteration action whileMsg 100 (actOkState env (bumpCond env s)))
        (by simp; omega) (by simp; omega) (by rw [hnow']; simp)
    refine ⟨s', hrun, hit, ?_, ?_, ?_⟩
    · rw [hev]
      have hk : m - s.iteration = (m - (s.iteration + 1)) + 1 := by omega
      rw [hk, List.range'_succ]
      simp [List.append_assoc]
    · rw [hacts]; simp; omega
    · rw [hconds]; simp; omega

/-- A `do-while` loop whose condition never becomes true, under instantly
succeeding collaborators and a timeout of at least `100 * m`, runs from any
state strictly below the cap straight to the cap. -/
lemma doWhileLoop_ok_run (env : Env) (action : ActionSpec) (loop : LoopSpec)
    (u : StopCondition) (m : Nat)
    (hok : actionOk env action) (hu : loop.untilCond = some u)
    (hcond : ∀ n, condOutcome env u n = Except.ok false)
    (had : ∀ n, env.actDur n = 0) (hcd : ∀ n, env.condDur n = 0)
    (htmo : 100 * m ≤ env.attachedTimeout) :
    ∀ d s, m - s.iteration = d → s.iteration < m → s.now = 100 * s.iteration →
      ∃ s', doWhileLoop env action loop m s = (s', none) ∧
        s'.iteration = m ∧
        s'.evidence = s.evidence ++
          (List.range' (s.iteration + 1) (m - s.iteration)).map (recordAt action doWhileMsg) ∧
        s'.nActs = s.nActs + (m - s.iteration) ∧
        s'.nConds = s.nConds + (m - s.iteration) := by
  intro d
  induction d with
  | zero => intro s hd hlt hnow; omega
  | succ d ih =>
    intro s hd hlt hnow
    have hc := evaluateCondition_eq env loop
      (completeIteration action doWhileMsg 100 (actOkState env s)) u hu
    rw [hcond] at hc
    rw [doWhileLoop_step_ok env action loop m s _ false hok hc]
    rw [if_neg (by simp)]
    have hs4it : (bumpCond env (completeIteration action doWhileMsg 100 (actOkState env s))).iteration
        = s.iteration + 1 := by simp
    have hs4now : (bumpCond env (completeIteration action doWhileMsg 100 (actOkState env s))).now
        = 100 * (s.iteration + 1) := by
      simp [had, hcd, hnow]
      ring
    by_cases hstop : s.iteration + 1 = m
    · rw [if_pos (by rw [hs4it]; omega)]
      refine ⟨_, rfl, by rw [hs4it]; omega, ?_, by simp; omega, by simp; omega⟩
      have hk : m - s.iteration = 1 := by omega
      rw [hk]
      simp
    · rw [if_neg (by rw [hs4it]; omega), if_neg (by rw [hs4now]; omega)]
      obtain ⟨s', hrun, hit, hev, hacts, hconds⟩ :=
        ih (bumpCond env (completeIteration action doWhileMsg 100 (actOkState env s)))
          (by rw [hs4it]; omega) (by rw [hs4it]; omega) (by rw [hs4now, hs4it])
      refine ⟨s', hrun, hit, ?_, ?_, ?_⟩
      · rw [hev]
        have hk : m - s.iteration = (m - (s.iteration + 1)) + 1 := by omega
        rw [hs4it, hk, List.range'_succ]
        simp [List.append_assoc]
      · rw [hacts]; simp; omega
      · rw [hconds]; simp; omega

lemma runAction_nActs (env : Env) (action : ActionSpec) (s : EngineState) :
    (runAction env action s).1.nActs = s.nActs + 1 := by
  unfold runAction bumpAct interactStep
  cases hl : env.actLocate s.nActs <;> cases ht : action.type <;> cases hv : action.value <;>
    simp [hl, ht, hv]

lemma evaluateCondition_nActs (env : Env) (loop : LoopSpec) (s : EngineState) :
    (evaluateCondition env loop s).1.nActs = s.nActs := by
  unfold evaluateCondition bumpCond
  cases hu : loop.untilCond with
  | none => rfl
  | some u => cases hl : env.condLocate s.nConds <;> simp [hl]

@[simp] lemma bumpAct_iteration (env : Env) (s : EngineState) :
    (bumpAct env s).iteration = s.iteration := rfl

@[simp] lemma bumpAct_evidence (env : Env) (s : EngineState) :
    (bumpAct env s).evidence = s.evidence := rfl

@[simp] lemma bumpAct_nActs (env : Env) (s : EngineState) :
    (bumpAct env s).nActs = s.nActs + 1 := rfl

@[simp] lemma bumpAct_nInteractions (env : Env) (s : EngineState) :
    (bumpAct env s).nInteractions = s.nInteractions := rfl

@[simp] lemma bumpCond_nInteractions (env : Env) (s : EngineState) :
    (bumpCond env s).nInteractions = s.nInteractions := rfl

/-- A successful `runAction` at one call site: the locate and interaction of
call number `s.nActs` succeed and the action carries the value it needs. -/
lemma runAction_ok_at (env : Env) (action : ActionSpec) (s : EngineState)
    (h1 : env.actLocate s.nActs = none) (h2 : env.interact s.nActs = none)
    (h3 : (action.type = ActionType.fill ∨ action.type = ActionType.press) →
      action.value ≠ none) :
    runAction env action s = (actOkState env s, none) := by
  cases ht : action.type
  case click => simp [runAction, interactStep, actOkState, bumpAct, h1, h2, ht]
  case hover => simp [runAction, interactStep, actOkState, bumpAct, h1, h2, ht]
  case fill =>
    cases hv : action.value with
    | none => exact absurd hv (h3 (Or.inl ht))
    | some v => simp [runAction, interactStep, actOkState, bumpAct, h1, h2, ht, hv]
  case press =>
    cases hv : action.value with
    | none => exact absurd hv (h3 (Or.inr ht))
    | some v => simp [runAction, interactStep, actOkState, bumpAct, h1, h2, ht, hv]

/-- Evaluation of `runAction` when the locate of call number `s.nActs` fails. -/
lemma runAction_locFail (env : Env) (action : ActionSpec) (s : EngineState) (e : Err)
    (hl : env.actLocate s.nActs = some e) :
    runAction env action s = (bumpAct env s, some e) := by
  simp [runAction, hl]

/-- Evaluation of `runAction` on a `fill` action with a missing value: the locate succeeds
but the spec error is thrown before the interaction method is touched. -/
lemma runAction_fill_missing (env : Env) (action : ActionSpec) (s : EngineState)
    (hl : env.actLocate s.nActs = none) (ht : action.type = ActionType.fill)
    (hv : action.value = none) :
    runAction env action s = (bumpAct env s, some (Err.specError "Fill action requires a value")) := by
  simp [runAction, hl, ht, hv]

/-- Evaluation of `runAction` on a `press` action with a missing value. -/
lemma runAction_press_missing (env : Env) (action : ActionSpec) (s : EngineState)
    (hl : env.actLocate s.nActs = none) (ht : action.type = ActionType.press)
    (hv : action.value = none) :
    runAction env action s = (bumpAct env s, some (Err.specError "Press action requires a value")) := by
  simp [runAction, hl, ht, hv]

/-- Evaluation of `runAction` on any `fill`/`press` action with a missing
value: a spec error naming the action kind, thrown after the locate but
before the interaction method. -/
lemma runAction_missing_value (env : Env) (action : ActionSpec) (s : EngineState)
    (hl : env.actLocate s.nActs = none)
    (hfill : action.type = ActionType.fill ∨ action.type = ActionType.press)
    (hval : action.value = none) :
    ∃ msg, runAction env action s = (bumpAct env s, some (Err.specError msg)) ∧
      (action.type = ActionType.fill → msg = "Fill action requires a value") ∧
      (action.type = ActionType.press → msg = "Press action requires a value") := by
  rcases hfill with hf | hf
  · refine ⟨_, runAction_fill_missing env action s hl hf hval, fun _ => rfl, ?_⟩
    intro hp
    rw [hf] at hp
    simp at hp
  · refine ⟨_, runAction_press_missing env action s hl hf hval, ?_, fun _ => rfl⟩
    intro hp
    rw [hf] at hp
    simp at hp

/-- One successful `for` body from any `runAction` outcome equality. -/
lemma forLoop_raw_step (env : Env) (action : ActionSpec) (k : Nat) (s s1 : EngineState)
    (h : s.iteration < k) (ha : runAction env action s = (s1, none)) :
    forLoop env action k s = forLoop env action k (completeIteration action forMsg 300 s1) := by
  conv_lhs => unfold forLoop
  rw [if_pos h]
  split
  next s1' e heq => rw [ha] at heq; simp at heq
  next s1' heq =>
    rw [ha] at heq
    injection heq with he1 he2
    subst he1
    rfl

/-- One successful `while` body from raw outcome equalities. -/
lemma whileLoop_raw_step (env : Env) (action : ActionSpec) (loop : LoopSpec) (m : Nat)
    (s s1 s2 : EngineState) (h : s.iteration < m)
    (hc : evaluateCondition env loop s = (s1, Except.ok false))
    (ha : runAction env action s1 = (s2, none)) :
    whileLoop env action loop m s =
      (if (completeIteration action whileMsg 100 s2).now > env.attachedTimeout
       then (completeIteration action whileMsg 100 s2, none)
       else whileLoop env action loop m (completeIteration action whileMsg 100 s2)) := by
  conv_lhs => unfold whileLoop
  rw [if_pos h]
  split
  next s1' e' heq => rw [hc] at heq; simp at heq
  next s1' heq => rw [hc] at heq; simp at heq
  next s1' heq =>
    rw [hc] at heq
    injection heq with he1 he2
    subst he1
    split
    next s2' e2 heq2 => rw [ha] at heq2; simp at heq2
    next s2' heq2 =>
      rw [ha] at heq2
      injection heq2 with hf1 hf2
      subst hf1
      rfl

/-- The `do-while` body whose condition evaluation errors, raw form. -/
lemma doWhileLoop_raw_condErr (env : Env) (action : ActionSpec) (loop : LoopSpec) (m : Nat)
    (s s1 s4 : EngineState) (e : Err)
    (ha : runAction env action s = (s1, none))
    (hc : evaluateCondition env loop (completeIteration action doWhileMsg 100 s1)
            = (s4, Except.error e)) :
    doWhileLoop env action loop m s = (s4, some e) := by
  conv_lhs => unfold doWhileLoop
  split
  next s1' e' heq => rw [ha] at heq; simp at heq
  next s1' heq =>
    rw [ha] at heq
    injection heq with he1 he2
    subst he1
    split
    next s4' e4 heq4 =>
      rw [hc] at heq4
      injection heq4 with hf1 hf2
      injection hf2 with hf2
      subst hf1; subst hf2
      rfl
    next s4' heq4 => rw [hc] at heq4; simp at heq4
    next s4' heq4 => rw [hc] at heq4; simp at heq4

/-- The `do-while` body whose condition evaluates to `true`, raw form. -/
lemma doWhileLoop_raw_condTrue (env : Env) (action : ActionSpec) (loop : LoopSpec) (m : Nat)
    (s s1 s4 : EngineState)
    (ha : runAction env action s = (s1, none))
    (hc : evaluateCondition env loop (completeIteration action doWhileMsg 100 s1)
            = (s4, Except.ok true)) :
    doWhileLoop env action loop m s = (s4, none) := by
  conv_lhs => unfold doWhileLoop
  split
  next s1' e' heq => rw [ha] at heq; simp at heq
  next s1' heq =>
    rw [ha] at heq
    injection heq with he1 he2
    subst he1
    split
    next s4' e4 heq4 => rw [hc] at heq4; simp at heq4
    next s4' heq4 =>
      rw [hc] at heq4
      injection heq4 with hf1 hf2
      subst hf1
      rfl
    next s4' heq4 => rw [hc] at heq4; simp at heq4

/-- The `do-while` body whose condition evaluates to `false`, raw form. -/
lemma doWhileLoop_raw_condFalse (env : Env) (action : ActionSpec) (loop : LoopSpec) (m : Nat)
    (s s1 s4 : EngineState)
    (ha : runAction env action s = (s1, none))
    (hc : evaluateCondition env loop (completeIteration action doWhileMsg 100 s1)
            = (s4, Except.ok false)) :
    doWhileLoop env action loop m s =
      (if s4.iteration ≥ m then (s4, none)
       else if s4.now > env.attachedTimeout then (s4, none)
       else doWhileLoop env action loop m s4) := by
  conv_lhs => unfold doWhileLoop
  split
  next s1' e' heq => rw [ha] at heq; simp at heq
  next s1' heq =>
    rw [ha] at heq
    injection heq with he1 he2
    subst he1
    split
    next s4' e4 heq4 => rw [hc] at heq4; simp at heq4
    next s4' heq4 => rw [hc] at heq4; simp at heq4
    next s4' heq4 =>
      rw [hc] at heq4
      injection heq4 with hf1 hf2
      subst hf1
      rfl

lemma runAction_state_inv (env : Env) (action : ActionSpec) (x s1 : EngineState)
    (o : Option Err) (ha : runAction env action x = (s1, o)) :
    s1.iteration = x.iteration ∧ s1.evidence = x.evidence ∧ s1.nActs = x.nActs + 1 := by
  refine ⟨?_, ?_, ?_⟩
  · have h := runAction_iteration env action x; rw [ha] at h; exact h
  · have h := runAction_evidence env action x; rw [ha] at h; exact h
  · have h := runAction_nActs env action x; rw [ha] at h; exact h

lemma evaluateCondition_state_inv (env : Env) (loop : LoopSpec) (x s1 : EngineState)
    (o : Except Err Bool) (hc : evaluateCondition env loop x = (s1, o)) :
    s1.iteration = x.iteration ∧ s1.evidence = x.evidence ∧ s1.nActs = x.nActs := by
  refine ⟨?_, ?_, ?_⟩
  · have h := evaluateCondition_iteration env loop x; rw [hc] at h; exact h
  · have h := evaluateCondition_evidence env loop x; rw [hc] at h; exact h
  · have h := evaluateCondition_nActs env loop x; rw [hc] at h; exact h

/-- The evidence/counter invariant: the iteration numbers of the records
accumulated so far are exactly `1..iteration` in order. -/
def evOk (s : EngineState) : Prop :=
  s.evidence.map IterationRecord.iteration = List.range' 1 s.iteration

lemma evOk_initialState : evOk initialState := by
  unfold evOk
  simp

lemma evOk_of_eq (s s' : EngineState) (hev : s'.evidence = s.evidence)
    (hit : s'.iteration = s.iteration) (h : evOk s) : evOk s' := by
  unfold evOk at *
  rw [hev, hit, h]

lemma evOk_completeIteration (action : ActionSpec) (p : String) (d : Nat) (s : EngineState)
    (h : evOk s) : evOk (completeIteration action p d s) := by
  unfold evOk at *
  simp only [completeIteration_evidence, completeIteration_iteration, List.map_append,
    List.map_cons, List.map_nil, recordAt_iteration, List.range'_1_concat, h]
  simp [Nat.add_comm]

lemma forLoop_evOk (env : Env) (action : ActionSpec) (k : Nat) :
    ∀ s, evOk s → evOk (forLoop env action k s).1 := by
  intro s
  induction s using forLoop.induct env action k with
  | case1 x h s1 e ha =>
    intro hx
    rw [forLoop_step_err env action k x s1 e ha h]
    obtain ⟨hi, he, -⟩ := runAction_state_inv env action x s1 _ ha
    exact evOk_of_eq x s1 he hi hx
  | case2 x h s1 ha ih =>
    intro hx
    rw [forLoop_raw_step env action k x s1 h ha]
    obtain ⟨hi, he, -⟩ := runAction_state_inv env action x s1 _ ha
    exact ih (evOk_completeIteration action forMsg 300 s1 (evOk_of_eq x s1 he hi hx))
  | case3 x h =>
    intro hx
    rw [forLoop_stop env action k x h]
    exact hx

lemma whileLoop_evOk (env : Env) (action : ActionSpec) (loop : LoopSpec) (m : Nat) :
    ∀ s, evOk s → evOk (whileLoop env action loop m s).1 := by
  intro s
  induction s using whileLoop.induct env action loop m with
  | case1 x h s1 e hc =>
    intro hx
    rw [whileLoop_condError env action loop m x s1 e h hc]
    obtain ⟨hi, he, -⟩ := evaluateCondition_state_inv env loop x s1 _ hc
    exact evOk_of_eq x s1 he hi hx
  | case2 x h s1 hc =>
    intro hx
    rw [whileLoop_condTrue env action loop m x s1 h hc]
    obtain ⟨hi, he, -⟩ := evaluateCondition_state_inv env loop x s1 _ hc
    exact evOk_of_eq x s1 he hi hx
  | case3 x h s1 hc s2 e ha =>
    intro hx
    rw [whileLoop_step_actErr env action loop m x s1 s2 e h hc ha]
    obtain ⟨hi1, he1, -⟩ := evaluateCondition_state_inv env loop x s1 _ hc
    obtain ⟨hi2, he2, -⟩ := runAction_state_inv env action s1 s2 _ ha
    exact evOk_of_eq x s2 (he2.trans he1) (hi2.trans hi1) hx
  | case4 x h s1 hc s2 ha s4v htime =>
    intro hx
    have htime' : (completeIteration action whileMsg 100 s2).now > env.attachedTimeout := htime
    rw [whileLoop_raw_step env action loop m x s1 s2 h hc ha, if_pos htime']
    obtain ⟨hi1, he1, -⟩ := evaluateCondition_state_inv env loop x s1 _ hc
    obtain ⟨hi2, he2, -⟩ := runAction_state_inv env action s1 s2 _ ha
    exact evOk_completeIteration action whileMsg 100 s2
      (evOk_of_eq x s2 (he2.trans he1) (hi2.trans hi1) hx)
  | case5 x h s1 hc s2 ha s4v htime ih =>
    intro hx
    have htime' : ¬ (completeIteration action whileMsg 100 s2).now > env.attachedTimeout := htime
    rw [whileLoop_raw_step env action loop m x s1 s2 h hc ha, if_neg htime']
    obtain ⟨hi1, he1, -⟩ := evaluateCondition_state_inv env loop x s1 _ hc
    obtain ⟨hi2, he2, -⟩ := runAction_state_inv env action s1 s2 _ ha
    exact ih (evOk_completeIteration action whileMsg 100 s2
      (evOk_of_eq x s2 (he2.trans he1) (hi2.trans hi1) hx))
  | case6 x h =>
    intro hx
    rw [whileLoop_stop env action loop m x h]
    exact hx

lemma doWhileLoop_evOk (env : Env) (action : ActionSpec) (loop : LoopSpec) (m : Nat) :
    ∀ s, evOk s → evOk (doWhileLoop env action loop m s).1 := by
  intro s
  induction s using doWhileLoop.induct env action loop m with
  | case1 x s1 e ha =>
    intro hx
    rw [doWhileLoop_actErr env action loop m x s1 e ha]
    obtain ⟨hi, he, -⟩ := runAction_state_inv env action x s1 _ ha
    exact evOk_of_eq x s1 he hi hx
  | case2 x s1 ha s4 e hc =>
    intro hx
    rw [doWhileLoop_raw_condErr env action loop m x s1 s4 e ha hc]
    obtain ⟨hi1, he1, -⟩ := runAction_state_inv env action x s1 _ ha
    obtain ⟨hi4, he4, -⟩ := evaluateCondition_state_inv env loop _ s4 _ hc
    have hcomp : evOk (completeIteration action doWhileMsg 100 s1) :=
      evOk_completeIteration action doWhileMsg 100 s1 (evOk_of_eq x s1 he1 hi1 hx)
    exact evOk_of_eq _ s4 he4 hi4 hcomp
  | case3 x s1 ha s4 hc =>
    intro hx
    rw [doWhileLoop_raw_condTrue env action loop m x s1 s4 ha hc]
    obtain ⟨hi1, he1, -⟩ := runAction_state_inv env action x s1 _ ha
    obtain ⟨hi4, he4, -⟩ := evaluateCondition_state_inv env loop _ s4 _ hc
    have hcomp : evOk (completeIteration action doWhileMsg 100 s1) :=
      evOk_completeIteration action doWhileMsg 100 s1 (evOk_of_eq x s1 he1 hi1 hx)
    exact evOk_of_eq _ s4 he4 hi4 hcomp
  | case4 x s1 ha s4 hc hcap =>
    intro hx
    rw [doWhileLoop_raw_condFalse env action loop m x s1 s4 ha hc, if_pos hcap]
    obtain ⟨hi1, he1, -⟩ := runAction_state_inv env action x s1 _ ha
    obtain ⟨hi4, he4, -⟩ := evaluateCondition_state_inv env loop _ s4 _ hc
    have hcomp : evOk (completeIteration action doWhileMsg 100 s1) :=
      evOk_completeIteration action doWhileMsg 100 s1 (evOk_of_eq x s1 he1 hi1 hx)
    exact evOk_of_eq _ s4 he4 hi4 hcomp
  | case5 x s1 ha s4 hc hcap htime =>
    intro hx
    rw [doWhileLoop_raw_condFalse env action loop m x s1 s4 ha hc, if_neg hcap, if_pos htime]
    obtain ⟨hi1, he1, -⟩ := runAction_state_inv env action x s1 _ ha
    obtain ⟨hi4, he4, -⟩ := evaluateCondition_state_inv env loop _ s4 _ hc
    have hcomp : evOk (completeIteration action doWhileMsg 100 s1) :=
      evOk_completeIteration action doWhileMsg 100 s1 (evOk_of_eq x s1 he1 hi1 hx)
    exact evOk_of_eq _ s4 he4 hi4 hcomp
  | case6 x s1 ha s4 hc hcap htime ih =>
    intro hx
    rw [doWhileLoop_raw_condFalse env action loop m x s1 s4 ha hc, if_neg hcap, if_neg htime]
    obtain ⟨hi1, he1, -⟩ := runAction_state_inv env action x s1 _ ha
    obtain ⟨hi4, he4, -⟩ := evaluateCondition_state_inv env loop _ s4 _ hc
    have hcomp : evOk (completeIteration action doWhileMsg 100 s1) :=
      evOk_completeIteration action doWhileMsg 100 s1 (evOk_of_eq x s1 he1 hi1 hx)
    exact ih (evOk_of_eq _ s4 he4 hi4 hcomp)

/-- Evidence and action count never shrink along a `do-while` run. -/
lemma doWhileLoop_mono (env : Env) (action : ActionSpec) (loop : LoopSpec) (m : Nat) :
    ∀ s, s.evidence.length ≤ (doWhileLoop env action loop m s).1.evidence.length ∧
      s.nActs ≤ (doWhileLoop env action loop m s).1.nActs := by
  intro s
  induction s using doWhileLoop.induct env action loop m with
  | case1 x s1 e ha =>
    rw [doWhileLoop_actErr env action loop m x s1 e ha]
    obtain ⟨-, he, hn⟩ := runAction_state_inv env action x s1 _ ha
    constructor
    · show x.evidence.length ≤ s1.evidence.length
      rw [he]
    · show x.nActs ≤ s1.nActs
      omega
  | case2 x s1 ha s4 e hc =>
    rw [doWhileLoop_raw_condErr env action loop m x s1 s4 e ha hc]
    obtain ⟨-, he1, hn1⟩ := runAction_state_inv env action x s1 _ ha
    obtain ⟨-, he4, hn4⟩ := evaluateCondition_state_inv env loop _ s4 _ hc
    constructor
    · show x.evidence.length ≤ s4.evidence.length
      rw [he4, completeIteration_evidence, List.length_append, he1]
      simp
    · show x.nActs ≤ s4.nActs
      rw [hn4, completeIteration_nActs, hn1]
      omega
  | case3 x s1 ha s4 hc =>
    rw [doWhileLoop_raw_condTrue env action loop m x s1 s4 ha hc]
    obtain ⟨-, he1, hn1⟩ := runAction_state_inv env action x s1 _ ha
    obtain ⟨-, he4, hn4⟩ := evaluateCondition_state_inv env loop _ s4 _ hc
    constructor
    · show x.evidence.length ≤ s4.evidence.length
      rw [he4, completeIteration_evidence, List.length_append, he1]
      simp
    · show x.nActs ≤ s4.nActs
      rw [hn4, completeIteration_nActs, hn1]
      omega
  | case4 x s1 ha s4 hc hcap =>
    rw [doWhileLoop_raw_condFalse env action loop m x s1 s4 ha hc, if_pos hcap]
    obtain ⟨-, he1, hn1⟩ := runAction_state_inv env action x s1 _ ha
    obtain ⟨-, he4, hn4⟩ := evaluateCondition_state_inv env loop _ s4 _ hc
    constructor
    · show x.evidence.length ≤ s4.evidence.length
      rw [he4, completeIteration_evidence, List.length_append, he1]
      simp
    · show x.nActs ≤ s4.nActs
      rw [hn4, completeIteration_nActs, hn1]
      omega
  | case5 x s1 ha s4 hc hcap htime =>
    rw [doWhileLoop_raw_condFalse env action loop m x s1 s4 ha hc, if_neg hcap, if_pos htime]
    obtain ⟨-, he1, hn1⟩ := runAction_state_inv env action x s1 _ ha
    obtain ⟨-, he4, hn4⟩ := evaluateCondition_state_inv env loop _ s4 _ hc
    constructor
    · show x.evidence.length ≤ s4.evidence.length
      rw [he4, completeIteration_evidence, List.length_append, he1]
      simp
    · show x.nActs ≤ s4.nActs
      rw [hn4, completeIteration_nActs, hn1]
      omega
  | case6 x s1 ha s4 hc hcap htime ih =>
    rw [doWhileLoop_raw_condFalse env action loop m x s1 s4 ha hc, if_neg hcap, if_neg htime]
    obtain ⟨-, he1, hn1⟩ := runAction_state_inv env action x s1 _ ha
    obtain ⟨-, he4, hn4⟩ := evaluateCondition_state_inv env loop _ s4 _ hc
    obtain ⟨ih1, ih2⟩ := ih
    constructor
    · refine le_trans ?_ ih1
      rw [he4, completeIteration_evidence, List.length_append, he1]
      simp
    · refine le_trans ?_ ih2
      rw [hn4, completeIteration_nActs, hn1]
      omega

/-- C3: when the stop condition is true before any iteration, a `while` spec
performs zero actions and yields zero records with `status = 'fail'`, while a
`do-while` spec performs exactly one action and yields exactly one record. -/
theorem c3_immediate_condition_while_vs_doWhile (env : Env) (u : StopCondition) (m : Nat)
    (pw pd : Params)
    (hw1 : pw.loop.type = LoopType.whileL) (hw2 : pw.loop.untilCond = some u)
    (hwm : (pw.limits.bind Limits.maxIterations).getD 20 = m)
    (hd1 : pd.loop.type = LoopType.doWhileL) (hd2 : pd.loop.untilCond = some u)
    (hokd : actionOk env pd.action)
    (hcond0 : condOutcome env u 0 = Except.ok true) :
    (∃ s r, handleRun env pw = (s, Except.ok r) ∧ s.nActs = 0 ∧
      r.summary.total = 0 ∧ r.summary.evidence = [] ∧ r.summary.status = "fail") ∧
    (∃ s r, handleRun env pd = (s, Except.ok r) ∧ s.nActs = 1 ∧
      r.summary.total = 1 ∧ r.summary.evidence.length = 1) := by
  constructor
  · rw [handleRun_while env pw u hw1 hw2, hwm]
    by_cases hm : 0 < m
    · have hc := evaluateCondition_eq env pw.loop initialState u hw2
      rw [initialState_nConds, hcond0] at hc
      rw [whileLoop_condTrue env pw.action pw.loop m initialState (bumpCond env initialState)
        (by simpa using hm) hc]
      exact ⟨bumpCond env initialState, _, rfl, rfl, rfl, rfl, rfl⟩
    · rw [whileLoop_stop env pw.action pw.loop m initialState (by simpa using hm)]
      exact ⟨initialState, _, rfl, rfl, rfl, rfl, rfl⟩
  · have ha : runAction env pd.action initialState = (actOkState env initialState, none) :=
      runAction_ok env pd.action initialState hokd
    have hc := evaluateCondition_eq env pd.loop
      (completeIteration pd.action doWhileMsg 100 (actOkState env initialState)) u hd2
    rw [show (completeIteration pd.action doWhileMsg 100 (actOkState env initialState)).nConds
      = 0 from rfl, hcond0] at hc
    rw [handleRun_doWhile env pd u hd1 hd2]
    rw [doWhileLoop_raw_condTrue env pd.action pd.loop _ initialState _ _ ha hc]
    exact ⟨_, _, rfl, rfl, rfl, rfl⟩

/-- Witness for C3 with an always-true visibility condition. -/
theorem c3_immediate_condition_while_vs_doWhile_witness :
    condOutcome envCondTrue visibleCond 0 = Except.ok true ∧
    ((∃ s r, handleRun envCondTrue
        (mkParams LoopType.whileL none (some visibleCond) clickAction none)
        = (s, Except.ok r) ∧ s.nActs = 0 ∧
      r.summary.total = 0 ∧ r.summary.evidence = [] ∧ r.summary.status = "fail") ∧
    (∃ s r, handleRun envCondTrue
        (mkParams LoopType.doWhileL none (some visibleCond) clickAction none)
        = (s, Except.ok r) ∧ s.nActs = 1 ∧
      r.summary.total = 1 ∧ r.summary.evidence.length = 1)) := by
  have hok : actionOk envCondTrue clickAction :=
    ⟨fun _ => rfl, fun _ => rfl, by simp [clickAction]⟩
  exact ⟨rfl, c3_immediate_condition_while_vs_doWhile envCondTrue visibleCond 20
    (mkParams LoopType.whileL none (some visibleCond) clickAction none)
    (mkParams LoopType.doWhileL none (some visibleCond) clickAction none)
    rfl rfl rfl rfl rfl hok rfl⟩

/-- C4 counterexample: a `do-while` spec with `limits.maxIterations = 0`
whose condition never becomes true (and whose collaborators always succeed)
produces one record, not the zero records the claim requires for `m = 0`. -/
theorem c4_counterexample_doWhile_cap_zero :
    ∃ s r, handleRun envCondFalse
        (mkParams LoopType.doWhileL none (some visibleCond) clickAction (some 0))
        = (s, Except.ok r) ∧
      r.summary.total = 1 ∧ r.summary.evidence.length = 1 ∧
      ¬ r.summary.evidence.length = 0 := by
  have ha : runAction envCondFalse
      (mkParams LoopType.doWhileL none (some visibleCond) clickAction (some 0)).action
      initialState = (actOkState envCondFalse initialState, none) :=
    runAction_ok_at _ _ _ rfl rfl (by simp [mkParams, clickAction])
  have hc := evaluateCondition_eq envCondFalse
    (mkParams LoopType.doWhileL none (some visibleCond) clickAction (some 0)).loop
    (completeIteration
      (mkParams LoopType.doWhileL none (some visibleCond) clickAction (some 0)).action
      doWhileMsg 100 (actOkState envCondFalse initialState)) visibleCond rfl
  rw [show condOutcome envCondFalse visibleCond
    (completeIteration
      (mkParams LoopType.doWhileL none (some visibleCond) clickAction (some 0)).action
      doWhileMsg 100 (actOkState envCondFalse initialState)).nConds
    = Except.ok false from rfl] at hc
  have hred := doWhileLoop_raw_condFalse envCondFalse
    (mkParams LoopType.doWhileL none (some visibleCond) clickAction (some 0)).action
    (mkParams LoopType.doWhileL none (some visibleCond) clickAction (some 0)).loop
    0 initialState _ _ ha hc
  rw [if_pos (Nat.zero_le _)] at hred
  rw [handleRun_doWhile envCondFalse
    (mkParams LoopType.doWhileL none (some visibleCond) clickAction (some 0)) visibleCond
    rfl rfl]
  rw [show ((mkParams LoopType.doWhileL none (some visibleCond) clickAction
    (some 0)).limits.bind Limits.maxIterations).getD 20 = 0 from rfl]
  rw [hred]
  exact ⟨_, _, rfl, rfl, rfl, by simp⟩

/-- C4 (amended): with `limits.maxIterations = m`, a condition that never
becomes true, always-succeeding collaborators and no timeout breach, a
`while` spec produces exactly `m` records and performs exactly `m` actions
(for every `m`), and a `do-while` spec does so for every `m ≥ 1` (for
`m = 0` it still performs one action, see the counterexample). -/
theorem c4_amended_cap_is_exact (env : Env) (u : StopCondition) (m : Nat) (pw pd : Params)
    (hw1 : pw.loop.type = LoopType.whileL) (hw2 : pw.loop.untilCond = some u)
    (hwm : (pw.limits.bind Limits.maxIterations).getD 20 = m)
    (hd1 : pd.loop.type = LoopType.doWhileL) (hd2 : pd.loop.untilCond = some u)
    (hdm : (pd.limits.bind Limits.maxIterations).getD 20 = m)
    (hokw : actionOk env pw.action) (hokd : actionOk env pd.action)
    (hcond : ∀ n, condOutcome env u n = Except.ok false)
    (had : ∀ n, env.actDur n = 0) (hcd : ∀ n, env.condDur n = 0)
    (htmo : 100 * m ≤ env.attachedTimeout) :
    (∃ s r, handleRun env pw = (s, Except.ok r) ∧
      s.nActs = m ∧ r.summary.total = m ∧ r.summary.evidence.length = m) ∧
    (1 ≤ m → ∃ s r, handleRun env pd = (s, Except.ok r) ∧
      s.nActs = m ∧ r.summary.total = m ∧ r.summary.evidence.length = m) := by
  constructor
  · rw [handleRun_while env pw u hw1 hw2, hwm]
    obtain ⟨s', hrun, hit, hev, hacts, hconds⟩ :=
      whileLoop_ok_run env pw.action pw.loop u m hokw hw2 hcond had hcd htmo
        (m - initialState.iteration) initialState rfl (by simp) (by simp)
    rw [hrun]
    refine ⟨s', _, rfl, by simpa using hacts, by simpa using hit, ?_⟩
    rw [buildReport_evidence, hev]
    simp
  · intro hm1
    rw [handleRun_doWhile env pd u hd1 hd2, hdm]
    obtain ⟨s', hrun, hit, hev, hacts, hconds⟩ :=
      doWhileLoop_ok_run env pd.action pd.loop u m hokd hd2 hcond had hcd htmo
        (m - initialState.iteration) initialState rfl (by simpa using hm1) (by simp)
    rw [hrun]
    refine ⟨s', _, rfl, by simpa using hacts, by simpa using hit, ?_⟩
    rw [buildReport_evidence, hev]
    simp

/-- Witness for the amended C4 at `m = 2`. -/
theorem c4_amended_cap_is_exact_witness :
    (∀ n, condOutcome envCondFalse visibleCond n = Except.ok false) ∧
    ((∃ s r, handleRun envCondFalse
        (mkParams LoopType.whileL none (some visibleCond) clickAction (some 2))
        = (s, Except.ok r) ∧
      s.nActs = 2 ∧ r.summary.total = 2 ∧ r.summary.evidence.length = 2) ∧
    (1 ≤ 2 → ∃ s r, handleRun envCondFalse
        (mkParams LoopType.doWhileL none (some visibleCond) clickAction (some 2))
        = (s, Except.ok r) ∧
      s.nActs = 2 ∧ r.summary.total = 2 ∧ r.summary.evidence.length = 2)) := by
  have hok : actionOk envCondFalse clickAction :=
    ⟨fun _ => rfl, fun _ => rfl, by simp [clickAction]⟩
  exact ⟨fun _ => rfl, c4_amended_cap_is_exact envCondFalse visibleCond 2
    (mkParams LoopType.whileL none (some visibleCond) clickAction (some 2))
    (mkParams LoopType.doWhileL none (some visibleCond) clickAction (some 2))
    rfl rfl rfl rfl rfl rfl hok hok (fun _ => rfl) (fun _ => rfl) (fun _ => rfl)
    (by simp [envCondFalse])⟩

/-- The cycle-start relation tracks real recursion points: the `while` run
from `s` is the run from any cycle start reachable from `s`. -/
lemma whileCycleStart_run_eq (env : Env) (action : ActionSpec) (loop : LoopSpec) (m : Nat)
    (s t : EngineState) (h : whileCycleStart env action loop m s t) :
    whileLoop env action loop m s = whileLoop env action loop m t := by
  induction h with
  | init => rfl
  | next t t1 t2 hprev hguard hcond hact htime ih =>
    rw [ih, whileLoop_raw_step env action loop m t t1 t2 hguard hcond hact, if_neg htime]

/-- Every cycle start reachable from a state within the timeout is itself
within the timeout (the bottom-of-body time check guards entry into the next
cycle). -/
lemma whileCycleStart_now_le (env : Env) (action : ActionSpec) (loop : LoopSpec) (m : Nat)
    (s t : EngineState) (hs : s.now ≤ env.attachedTimeout)
    (h : whileCycleStart env action loop m s t) : t.now ≤ env.attachedTimeout := by
  induction h with
  | init => exact hs
  | next t t1 t2 hprev hguard hcond hact htime ih => omega

/-- C5: the `while` discipline never performs an action in a cycle whose
start violates a stop guard.  A cycle starting at or above `maxIterations`
returns immediately, performing nothing; and every reachable cycle start has
elapsed time at most the safety timeout, so no action is ever performed in a
cycle entered past the timeout. -/
theorem c5_while_stop_guards (env : Env) (action : ActionSpec) (loop : LoopSpec) (m : Nat) :
    (∀ s, m ≤ s.iteration → whileLoop env action loop m s = (s, none)) ∧
    (∀ t, whileCycleStart env action loop m initialState t →
      t.now ≤ env.attachedTimeout ∧
      whileLoop env action loop m initialState = whileLoop env action loop m t) := by
  constructor
  · intro s h
    exact whileLoop_stop env action loop m s (by omega)
  · intro t h
    exact ⟨whileCycleStart_now_le env action loop m initialState t (Nat.zero_le _) h,
      whileCycleStart_run_eq env action loop m initialState t h⟩

/-- Witness for C5 at `m = 0` and at the initial cycle start. -/
theorem c5_while_stop_guards_witness :
    whileLoop envCondFalse clickAction
      (mkParams LoopType.whileL none (some visibleCond) clickAction (some 0)).loop 0
      initialState = (initialState, none) ∧
    initialState.now ≤ envCondFalse.attachedTimeout := by
  refine ⟨(c5_while_stop_guards envCondFalse clickAction
    (mkParams LoopType.whileL none (some visibleCond) clickAction (some 0)).loop 0).1
    initialState (by omega), ?_⟩
  exact ((c5_while_stop_guards envCondFalse clickAction
    (mkParams LoopType.whileL none (some visibleCond) clickAction (some 0)).loop 0).2
    initialState (whileCycleStart.init initialState)).1

/-- From the ordered-map invariant, each record's iteration number is its
position plus one. -/
lemma map_iteration_pointwise (ev : List IterationRecord) (n : Nat)
    (h : ev.map IterationRecord.iteration = List.range' 1 n) :
    ∀ i (hi : i < ev.length), (ev.get ⟨i, hi⟩).iteration = i + 1 := by
  intro i hi
  have hmap : i < (ev.map IterationRecord.iteration).length := by simpa using hi
  have e1 : (ev.map IterationRecord.iteration)[i] = i + 1 := by
    simp only [h]
    rw [List.getElem_range'_1]
    omega
  rw [List.getElem_map] at e1
  rw [← e1]
  rw [List.get_eq_getElem]

lemma loopStart_evOk (env : Env) (loop : LoopSpec) (action : ActionSpec) (m : Nat)
    (s : EngineState) (h : evOk s) : evOk (loopStart env loop action m s).1 := by
  unfold loopStart
  cases ht : loop.type
  · exact forLoop_evOk env action _ s h
  · exact whileLoop_evOk env action loop m s h
  · exact doWhileLoop_evOk env action loop m s h

/-- Even an invocation that ends in an error leaves the engine state with
exactly the records of its completed iterations, numbered `1..iteration`:
no record exists for a failed iteration. -/
lemma handleRun_error_evOk (env : Env) (p : Params) (s : EngineState) (e : Err)
    (h : handleRun env p = (s, Except.error e)) :
    s.evidence.map IterationRecord.iteration = List.range' 1 s.iteration := by
  unfold handleRun at h
  by_cases h1 : p.loop.type = LoopType.forL ∧ p.loop.iterations = none
  · rw [if_pos h1] at h
    injection h with hs he
    subst hs
    exact evOk_initialState
  · rw [if_neg h1] at h
    by_cases h2 : (p.loop.type = LoopType.whileL ∨ p.loop.type = LoopType.doWhileL) ∧
        p.loop.untilCond = none
    · rw [if_pos h2] at h
      injection h with hs he
      subst hs
      exact evOk_initialState
    · rw [if_neg h2] at h
      rcases hls : loopStart env p.loop p.action
          ((p.limits.bind Limits.maxIterations).getD 20) initialState with ⟨s', o⟩
      rw [hls] at h
      cases o with
      | none => simp at h
      | some e' =>
        injection h with hs he
        subst hs
        have hinv := loopStart_evOk env p.loop p.action
          ((p.limits.bind Limits.maxIterations).getD 20) initialState evOk_initialState
        rw [hls] at hinv
        exact hinv

/-- C9: in every errorless run, in every discipline, the evidence sequence
has exactly one record per completed iteration, with `records[i].iteration
= i+1` — strictly increasing iteration numbers starting at 1. -/
theorem c9_evidence_ordering (env : Env) (p : Params) (r : Report)
    (h : handle env p = Except.ok r) :
    r.summary.evidence.length = r.summary.total ∧
    r.summary.evidence.map IterationRecord.iteration = List.range' 1 r.summary.total ∧
    ∀ i (hi : i < r.summary.evidence.length),
      (r.summary.evidence.get ⟨i, hi⟩).iteration = i + 1 := by
  unfold handle handleRun at h
  by_cases h1 : p.loop.type = LoopType.forL ∧ p.loop.iterations = none
  · rw [if_pos h1] at h; simp at h
  · rw [if_neg h1] at h
    by_cases h2 : (p.loop.type = LoopType.whileL ∨ p.loop.type = LoopType.doWhileL) ∧
        p.loop.untilCond = none
    · rw [if_pos h2] at h; simp at h
    · rw [if_neg h2] at h
      rcases hls : loopStart env p.loop p.action
          ((p.limits.bind Limits.maxIterations).getD 20) initialState with ⟨s, e⟩
      rw [hls] at h
      cases e with
      | some e => simp at h
      | none =>
        replace h : Except.ok (buildReport p.loop p.action s.iteration s.evidence)
            = Except.ok r := h
        injection h with h
        subst h
        have hev : evOk s := by
          have hinv := loopStart_evOk env p.loop p.action
            ((p.limits.bind Limits.maxIterations).getD 20) initialState evOk_initialState
          rw [hls] at hinv
          exact hinv
        refine ⟨?_, hev, map_iteration_pointwise s.evidence s.iteration hev⟩
        have hlen := congrArg List.length hev
        simpa using hlen

/-- Witness for C9 on a concrete errorless run. -/
theorem c9_evidence_ordering_witness :
    ∃ r, handle envCondFalse (mkParams LoopType.forL (some 0) none clickAction none)
        = Except.ok r ∧
      r.summary.evidence.length = r.summary.total ∧
      r.summary.evidence.map IterationRecord.iteration = List.range' 1 r.summary.total := by
  have hloop : forLoop envCondFalse clickAction 0 initialState = (initialState, none) :=
    forLoop_stop _ _ _ _ (by simp)
  have h : handle envCondFalse (mkParams LoopType.forL (some 0) none clickAction none)
      = Except.ok (buildReport (mkParams LoopType.forL (some 0) none clickAction none).loop
          clickAction initialState.iteration initialState.evidence) := by
    unfold handle
    rw [handleRun_for envCondFalse (mkParams LoopType.forL (some 0) none clickAction none) 0
      rfl rfl]
    simp only [mkParams]
    rw [hloop]
  exact ⟨_, h, (c9_evidence_ordering _ _ _ h).1, (c9_evidence_ordering _ _ _ h).2.1⟩

/-- C10: the `do-while` cap is only consulted after an iteration completes:
whenever the first action and the first condition evaluation succeed, at
least one action runs and at least one record is produced regardless of
`maxIterations`; with `maxIterations = 0` and a condition that stays false,
exactly one record is produced. -/
theorem c10_doWhile_cap_checked_after_iteration (env : Env) (u : StopCondition)
    (p : Params) (m : Nat) (b : Bool)
    (hd1 : p.loop.type = LoopType.doWhileL) (hd2 : p.loop.untilCond = some u)
    (hm : (p.limits.bind Limits.maxIterations).getD 20 = m)
    (ha0 : env.actLocate 0 = none) (hi0 : env.interact 0 = none)
    (hv : (p.action.type = ActionType.fill ∨ p.action.type = ActionType.press) →
      p.action.value ≠ none)
    (hc0 : condOutcome env u 0 = Except.ok b) :
    (1 ≤ (doWhileLoop env p.action p.loop m initialState).1.evidence.length ∧
     1 ≤ (doWhileLoop env p.action p.loop m initialState).1.nActs) ∧
    (m = 0 → b = false →
      ∃ s r, handleRun env p = (s, Except.ok r) ∧ r.summary.total = 1 ∧
        r.summary.evidence.length = 1 ∧ s.nActs = 1) := by
  have ha : runAction env p.action initialState = (actOkState env initialState, none) :=
    runAction_ok_at env p.action initialState
      (by rw [initialState_nActs]; exact ha0) (by rw [initialState_nActs]; exact hi0) hv
  have hc := evaluateCondition_eq env p.loop
    (completeIteration p.action doWhileMsg 100 (actOkState env initialState)) u hd2
  rw [show (completeIteration p.action doWhileMsg 100 (actOkState env initialState)).nConds
    = 0 from rfl, hc0] at hc
  constructor
  · cases b with
    | true =>
      rw [doWhileLoop_raw_condTrue env p.action p.loop m initialState _ _ ha hc]
      constructor
      · show 1 ≤ (bumpCond env
          (completeIteration p.action doWhileMsg 100 (actOkState env initialState))).evidence.length
        simp
      · show 1 ≤ (bumpCond env
          (completeIteration p.action doWhileMsg 100 (actOkState env initialState))).nActs
        simp
    | false =>
      rw [doWhileLoop_raw_condFalse env p.action p.loop m initialState _ _ ha hc]
      by_cases hcap : (bumpCond env
          (completeIteration p.action doWhileMsg 100 (actOkState env initialState))).iteration ≥ m
      · rw [if_pos hcap]
        constructor
        · show 1 ≤ (bumpCond env
            (completeIteration p.action doWhileMsg 100 (actOkState env initialState))).evidence.length
          simp
        · show 1 ≤ (bumpCond env
            (completeIteration p.action doWhileMsg 100 (actOkState env initialState))).nActs
          simp
      · rw [if_neg hcap]
        by_cases ht : (bumpCond env
            (completeIteration p.action doWhileMsg 100 (actOkState env initialState))).now
            > env.attachedTimeout
        · rw [if_pos ht]
          constructor
          · show 1 ≤ (bumpCond env
              (completeIteration p.action doWhileMsg 100 (actOkState env initialState))).evidence.length
            simp
          · show 1 ≤ (bumpCond env
              (completeIteration p.action doWhileMsg 100 (actOkState env initialState))).nActs
            simp
        · rw [if_neg ht]
          have hmono := doWhileLoop_mono env p.action p.loop m (bumpCond env
            (completeIteration p.action doWhileMsg 100 (actOkState env initialState)))
          constructor
          · refine le_trans ?_ hmono.1
            simp
          · refine le_trans ?_ hmono.2
            simp
  · intro hm0 hb
    subst hm0
    subst hb
    rw [handleRun_doWhile env p u hd1 hd2, hm]
    have hred := doWhileLoop_raw_condFalse env p.action p.loop 0 initialState _ _ ha hc
    rw [if_pos (Nat.zero_le _)] at hred
    rw [hred]
    exact ⟨_, _, rfl, rfl, rfl, rfl⟩

/-- Witness for C10 at `maxIterations = 0` with a never-true condition. -/
theorem c10_doWhile_cap_checked_after_iteration_witness :
    condOutcome envCondFalse visibleCond 0 = Except.ok false ∧
    ((1 ≤ (doWhileLoop envCondFalse
        (mkParams LoopType.doWhileL none (some visibleCond) clickAction (some 0)).action
        (mkParams LoopType.doWhileL none (some visibleCond) clickAction (some 0)).loop 0
        initialState).1.evidence.length ∧
      1 ≤ (doWhileLoop envCondFalse
        (mkParams LoopType.doWhileL none (some visibleCond) clickAction (some 0)).action
        (mkParams LoopType.doWhileL none (some visibleCond) clickAction (some 0)).loop 0
        initialState).1.nActs) ∧
    (0 = 0 → false = false →
      ∃ s r, handleRun envCondFalse
          (mkParams LoopType.doWhileL none (some visibleCond) clickAction (some 0))
          = (s, Except.ok r) ∧ r.summary.total = 1 ∧
        r.summary.evidence.length = 1 ∧ s.nActs = 1)) := by
  exact ⟨rfl, c10_doWhile_cap_checked_after_iteration envCondFalse visibleCond
    (mkParams LoopType.doWhileL none (some visibleCond) clickAction (some 0)) 0 false
    rfl rfl rfl rfl rfl (by simp [mkParams, clickAction]) rfl⟩

/-- A `for` loop whose actions succeed up to call `f` and whose call `f`
fails its locate aborts at iteration `f + 1` with no record for it. -/
lemma forLoop_fail_run (env : Env) (action : ActionSpec) (k f : Nat) (e : Err)
    (h1 : ∀ n, n < f → env.actLocate n = none) (h2 : ∀ n, env.interact n = none)
    (h3 : (action.type = ActionType.fill ∨ action.type = ActionType.press) →
      action.value ≠ none)
    (hf : env.actLocate f = some e) (hfk : f < k) :
    ∀ d s, f - s.iteration = d → s.iteration ≤ f → s.nActs = s.iteration →
      ∃ s', forLoop env action k s = (s', some e) ∧
        s'.iteration = f ∧
        s'.evidence = s.evidence ++
          (List.range' (s.iteration + 1) (f - s.iteration)).map (recordAt action forMsg) ∧
        s'.nActs = f + 1 := by
  intro d
  induction d with
  | zero =>
    intro s hd hle hna
    have hit : s.iteration = f := by omega
    have hrun : runAction env action s = (bumpAct env s, some e) :=
      runAction_locFail env action s e (by rw [hna, hit]; exact hf)
    rw [forLoop_step_err env action k s (bumpAct env s) e hrun (by omega)]
    refine ⟨bumpAct env s, rfl, by simpa using hit, ?_, by simp [hna, hit]⟩
    rw [hd]
    simp
  | succ d ih =>
    intro s hd hle hna
    have hlt : s.iteration < f := by omega
    have hrun : runAction env action s = (actOkState env s, none) :=
      runAction_ok_at env action s (by rw [hna]; exact h1 _ hlt) (h2 _) h3
    rw [forLoop_raw_step env action k s (actOkState env s) (by omega) hrun]
    obtain ⟨s', hr, hi, hev, hna'⟩ :=
      ih (completeIteration action forMsg 300 (actOkState env s))
        (by simp; omega) (by simp; omega) (by simp [hna])
    refine ⟨s', hr, hi, ?_, hna'⟩
    rw [hev]
    have hk : f - s.iteration = (f - (s.iteration + 1)) + 1 := by omega
    rw [hk, List.range'_succ]
    simp [List.append_assoc]

/-- A `while` loop whose condition evaluations return `false` below call `g`
and error at call `g` (actions succeeding, no timeout breach) aborts at the
top of cycle `g + 1` without running that cycle's action. -/
lemma whileLoop_condFail_run (env : Env) (action : ActionSpec) (loop : LoopSpec)
    (u : StopCondition) (m g : Nat) (e : Err)
    (hok : actionOk env action) (hu : loop.untilCond = some u)
    (hcb : ∀ n, n < g → condOutcome env u n = Except.ok false)
    (hce : condOutcome env u g = Except.error e)
    (had : ∀ n, env.actDur n = 0) (hcd : ∀ n, env.condDur n = 0)
    (htmo : 100 * g ≤ env.attachedTimeout) (hgm : g < m) :
    ∀ d s, g - s.iteration = d → s.iteration ≤ g → s.nConds = s.iteration →
        s.now = 100 * s.iteration →
      ∃ s', whileLoop env action loop m s = (s', some e) ∧
        s'.iteration = g ∧
        s'.evidence = s.evidence ++
          (List.range' (s.iteration + 1) (g - s.iteration)).map (recordAt action whileMsg) ∧
        s'.nActs = s.nActs + (g - s.iteration) ∧
        s'.nConds = g + 1 := by
  intro d
  induction d with
  | zero =>
    intro s hd hle hnc hnow
    have hit : s.iteration = g := by omega
    have hc := evaluateCondition_eq env loop s u hu
    rw [hnc, hit, hce] at hc
    rw [whileLoop_condError env action loop m s (bumpCond env s) e (by omega) hc]
    refine ⟨bumpCond env s, rfl, by simpa using hit, ?_, by simp [hd], by simp [hnc, hit]⟩
    rw [hd]
    simp
  | succ d ih =>
    intro s hd hle hnc hnow
    have hlt : s.iteration < g := by omega
    have hc := evaluateCondition_eq env loop s u hu
    rw [hnc, hcb s.iteration hlt] at hc
    rw [whileLoop_step_ok env action loop m s (bumpCond env s) (by omega) hc hok]
    have hnow' : (completeIteration action whileMsg 100 (actOkState env (bumpCond env s))).now
        = 100 * (s.iteration + 1) := by
      simp [had, hcd, hnow]
      ring
    rw [if_neg (by rw [hnow']; omega)]
    obtain ⟨s', hr, hi, hev, hna, hncs⟩ :=
      ih (completeIteration action whileMsg 100 (actOkState env (bumpCond env s)))
        (by simp; omega) (by simp; omega) (by simp [hnc]) (by rw [hnow']; simp)
    refine ⟨s', hr, hi, ?_, ?_, hncs⟩
    · rw [hev]
      have hk : g - s.iteration = (g - (s.iteration + 1)) + 1 := by omega
      rw [hk, List.range'_succ]
      simp [List.append_assoc]
    · rw [hna]
      simp
      omega

/-- C6: a collaborator failure mid-loop aborts the loop at once, in every
discipline and for every failure mode.  Stated locally over an arbitrary
cycle state `s` (hence over any point of any run): a failing `runAction`
(locate or interaction failure alike) or a failing condition evaluation
makes the loop return that error immediately, with the evidence and the
iteration counter exactly as they stood when the call failed — no record and
no increment for the failed iteration, no further cycles.  (In a `do-while`,
a condition failure occurs after its iteration completed, so that iteration
keeps its record and increment and nothing beyond them is added.)  Globally:
every invocation ending in an error yields no Report — `handle` propagates
the error — and the abort state holds exactly the records of completed
iterations, numbered `1..iteration`. -/
theorem c6_midloop_failure_aborts (env : Env) (action : ActionSpec) (loop : LoopSpec)
    (k m : Nat) :
    (∀ s s1 e, s.iteration < k → runAction env action s = (s1, some e) →
      forLoop env action k s = (s1, some e) ∧
        s1.iteration = s.iteration ∧ s1.evidence = s.evidence) ∧
    (∀ s s1 e, s.iteration < m → evaluateCondition env loop s = (s1, Except.error e) →
      whileLoop env action loop m s = (s1, some e) ∧
        s1.iteration = s.iteration ∧ s1.evidence = s.evidence) ∧
    (∀ s s1 s2 e, s.iteration < m → evaluateCondition env loop s = (s1, Except.ok false) →
      runAction env action s1 = (s2, some e) →
      whileLoop env action loop m s = (s2, some e) ∧
        s2.iteration = s.iteration ∧ s2.evidence = s.evidence) ∧
    (∀ s s1 e, runAction env action s = (s1, some e) →
      doWhileLoop env action loop m s = (s1, some e) ∧
        s1.iteration = s.iteration ∧ s1.evidence = s.evidence) ∧
    (∀ s s1 s4 e, runAction env action s = (s1, none) →
      evaluateCondition env loop (completeIteration action doWhileMsg 100 s1)
        = (s4, Except.error e) →
      doWhileLoop env action loop m s = (s4, some e) ∧
        s4.iteration = s.iteration + 1 ∧ s4.evidence.length = s.evidence.length + 1) ∧
    (∀ p s e, handleRun env p = (s, Except.error e) →
      handle env p = Except.error e ∧ s.evidence.length = s.iteration ∧
        s.evidence.map IterationRecord.iteration = List.range' 1 s.iteration) := by
  refine ⟨?_, ?_, ?_, ?_, ?_, ?_⟩
  · intro s s1 e hlt ha
    obtain ⟨hi, he, -⟩ := runAction_state_inv env action s s1 _ ha
    exact ⟨forLoop_step_err env action k s s1 e ha hlt, hi, he⟩
  · intro s s1 e hlt hc
    obtain ⟨hi, he, -⟩ := evaluateCondition_state_inv env loop s s1 _ hc
    exact ⟨whileLoop_condError env action loop m s s1 e hlt hc, hi, he⟩
  · intro s s1 s2 e hlt hc ha
    obtain ⟨hi1, he1, -⟩ := evaluateCondition_state_inv env loop s s1 _ hc
    obtain ⟨hi2, he2, -⟩ := runAction_state_inv env action s1 s2 _ ha
    exact ⟨whileLoop_step_actErr env action loop m s s1 s2 e hlt hc ha,
      hi2.trans hi1, he2.trans he1⟩
  · intro s s1 e ha
    obtain ⟨hi, he, -⟩ := runAction_state_inv env action s s1 _ ha
    exact ⟨doWhileLoop_actErr env action loop m s s1 e ha, hi, he⟩
  · intro s s1 s4 e ha hc
    obtain ⟨hi1, he1, -⟩ := runAction_state_inv env action s s1 _ ha
    obtain ⟨hi4, he4, -⟩ := evaluateCondition_state_inv env loop _ s4 _ hc
    refine ⟨doWhileLoop_raw_condErr env action loop m s s1 s4 e ha hc, ?_, ?_⟩
    · rw [hi4, completeIteration_iteration, hi1]
    · rw [he4, completeIteration_evidence, List.length_append, he1]
      simp
  · intro p s e h
    refine ⟨?_, ?_, handleRun_error_evOk env p s e h⟩
    · unfold handle
      rw [h]
    · have hlen := congrArg List.length (handleRun_error_evOk env p s e h)
      simpa using hlen

/-- Witness for C6: an `ActionError` from the interaction method (element
not interactable) aborts a `for` loop and a `do-while` loop at once; a
`NotFoundError` from the Condition Evaluator's locate aborts a `while` loop
before its first action and a `do-while` loop right after its first
completed iteration; the `for` failure propagates through `handle` with no
Report. -/
theorem c6_midloop_failure_aborts_witness :
    (forLoop envInteractFail clickAction 3 initialState
       = (⟨0, [], 0, 1, 0, 1, 1⟩, some (Err.actionError "element not interactable"))) ∧
    (whileLoop envCondLocFail clickAction
       { type := LoopType.whileL, iterations := none, untilCond := some visibleCond } 20
       initialState
       = (⟨0, [], 0, 0, 1, 0, 0⟩, some (Err.notFoundError "ref not resolved"))) ∧
    (doWhileLoop envInteractFail clickAction
       { type := LoopType.doWhileL, iterations := none, untilCond := some visibleCond } 20
       initialState
       = (⟨0, [], 0, 1, 0, 1, 1⟩, some (Err.actionError "element not interactable"))) ∧
    (doWhileLoop envCondLocFail clickAction
       { type := LoopType.doWhileL, iterations := none, untilCond := some visibleCond } 20
       initialState
       = (⟨1, [recordAt clickAction doWhileMsg 1], 100, 1, 1, 1, 1⟩,
          some (Err.notFoundError "ref not resolved"))) ∧
    (handle envInteractFail (mkParams LoopType.forL (some 3) none clickAction none)
       = Except.error (Err.actionError "element not interactable")) := by
  have hfor := (c6_midloop_failure_aborts envInteractFail clickAction
    { type := LoopType.whileL, iterations := none, untilCond := some visibleCond } 3 20).1
    initialState ⟨0, [], 0, 1, 0, 1, 1⟩ (Err.actionError "element not interactable")
    (by decide) rfl
  refine ⟨hfor.1, ?_, ?_, ?_, ?_⟩
  · exact ((c6_midloop_failure_aborts envCondLocFail clickAction
      { type := LoopType.whileL, iterations := none, untilCond := some visibleCond } 3 20).2.1
      initialState ⟨0, [], 0, 0, 1, 0, 0⟩ (Err.notFoundError "ref not resolved")
      (by decide) rfl).1
  · exact ((c6_midloop_failure_aborts envInteractFail clickAction
      { type := LoopType.doWhileL, iterations := none, untilCond := some visibleCond } 3 20).2.2.2.1
      initialState ⟨0, [], 0, 1, 0, 1, 1⟩ (Err.actionError "element not interactable") rfl).1
  · exact ((c6_midloop_failure_aborts envCondLocFail clickAction
      { type := LoopType.doWhileL, iterations := none, untilCond := some visibleCond } 3 20).2.2.2.2.1
      initialState ⟨0, [], 0, 1, 0, 1, 1⟩
      ⟨1, [recordAt clickAction doWhileMsg 1], 100, 1, 1, 1, 1⟩
      (Err.notFoundError "ref not resolved") rfl rfl).1
  · have hfull : handleRun envInteractFail (mkParams LoopType.forL (some 3) none clickAction none)
        = (⟨0, [], 0, 1, 0, 1, 1⟩, Except.error (Err.actionError "element not interactable")) := by
      rw [handleRun_for envInteractFail (mkParams LoopType.forL (some 3) none clickAction none)
        3 rfl rfl]
      simp only [mkParams]
      rw [hfor.1]
    exact ((c6_midloop_failure_aborts envInteractFail clickAction
      { type := LoopType.whileL, iterations := none, untilCond := some visibleCond } 3 20).2.2.2.2.2
      (mkParams LoopType.forL (some 3) none clickAction none) _ _ hfull).1

/-- C7: a `for` spec missing `iterations`, or a `while`/`do-while` spec
missing `until`, fails with a spec error while the engine state is still the
initial one: no iteration ran, no evidence exists, and neither the Action
Executor's locate nor any other collaborator call was ever made. -/
theorem c7_invalid_spec_rejected_before_loop (env : Env) (p : Params)
    (h : (p.loop.type = LoopType.forL ∧ p.loop.iterations = none) ∨
         ((p.loop.type = LoopType.whileL ∨ p.loop.type = LoopType.doWhileL) ∧
           p.loop.untilCond = none)) :
    ∃ msg, handleRun env p = (initialState, Except.error (Err.specError msg)) ∧
      (handleRun env p).1.nActs = 0 ∧ (handleRun env p).1.nLocates = 0 ∧
      (handleRun env p).1.nConds = 0 ∧ (handleRun env p).1.nInteractions = 0 ∧
      (handleRun env p).1.iteration = 0 ∧ (handleRun env p).1.evidence = [] := by
  unfold handleRun
  rcases h with ⟨h1, h2⟩ | ⟨h1, h2⟩
  · rw [if_pos ⟨h1, h2⟩]
    exact ⟨_, rfl, rfl, rfl, rfl, rfl, rfl, rfl⟩
  · have hne : ¬ (p.loop.type = LoopType.forL ∧ p.loop.iterations = none) := by
      rcases h1 with h1 | h1 <;> simp [h1]
    rw [if_neg hne, if_pos ⟨h1, h2⟩]
    exact ⟨_, rfl, rfl, rfl, rfl, rfl, rfl, rfl⟩

/-- Witness for C7 on a `for` spec without `iterations` and a `while` spec
without `until`. -/
theorem c7_invalid_spec_rejected_before_loop_witness :
    (∃ msg, handleRun envCondFalse (mkParams LoopType.forL none none clickAction none)
      = (initialState, Except.error (Err.specError msg)) ∧
      (handleRun envCondFalse (mkParams LoopType.forL none none clickAction none)).1.nActs = 0 ∧
      (handleRun envCondFalse (mkParams LoopType.forL none none clickAction none)).1.nLocates = 0 ∧
      (handleRun envCondFalse (mkParams LoopType.forL none none clickAction none)).1.nConds = 0 ∧
      (handleRun envCondFalse
        (mkParams LoopType.forL none none clickAction none)).1.nInteractions = 0 ∧
      (handleRun envCondFalse (mkParams LoopType.forL none none clickAction none)).1.iteration = 0 ∧
      (handleRun envCondFalse (mkParams LoopType.forL none none clickAction none)).1.evidence = []) ∧
    (∃ msg, handleRun envCondFalse (mkParams LoopType.whileL none none clickAction none)
      = (initialState, Except.error (Err.specError msg))) := by
  constructor
  · exact c7_invalid_spec_rejected_before_loop envCondFalse
      (mkParams LoopType.forL none none clickAction none) (Or.inl ⟨rfl, rfl⟩)
  · obtain ⟨msg, hmsg, -⟩ := c7_invalid_spec_rejected_before_loop envCondFalse
      (mkParams LoopType.whileL none none clickAction none) (Or.inr ⟨Or.inl rfl, rfl⟩)
    exact ⟨msg, hmsg⟩

/-- C8 counterexample: a `fill` action with no `value` does NOT always fail
the invocation — a `for` spec with `iterations = 0` never attempts the
action, so the invocation succeeds, with a fail-status report. -/
theorem c8_counterexample_action_never_attempted :
    (mkParams LoopType.forL (some 0) none fillNoValue none).action.type = ActionType.fill ∧
    (mkParams LoopType.forL (some 0) none fillNoValue none).action.value = none ∧
    ∃ r, handle envCondFalse (mkParams LoopType.forL (some 0) none fillNoValue none)
      = Except.ok r ∧ r.summary.status = "fail" ∧ r.summary.total = 0 := by
  refine ⟨rfl, rfl, ?_⟩
  have hloop : forLoop envCondFalse fillNoValue 0 initialState = (initialState, none) :=
    forLoop_stop _ _ _ _ (by simp)
  unfold handle
  rw [handleRun_for envCondFalse (mkParams LoopType.forL (some 0) none fillNoValue none) 0
    rfl rfl]
  simp only [mkParams]
  rw [hloop]
  exact ⟨_, rfl, rfl, rfl⟩

/-- C8 (amended): whenever the loop attempts the action at least once — a
`for` spec with `k ≥ 1`, a `while` spec whose first condition evaluation
returns `false` (with a positive cap), or any `do-while` spec, which always
attempts — a `fill`/`press` action with an absent `value` fails the
invocation at the first action attempt with the descriptive spec error,
before any iteration completes and without the locator's interaction method
ever being invoked. -/
theorem c8_amended_missing_value_fails_first_attempt (env : Env)
    (pf pw pd : Params) (k : Nat) (u ud : StopCondition)
    (hloc0 : env.actLocate 0 = none)
    (hf1 : pf.loop.type = LoopType.forL) (hf2 : pf.loop.iterations = some k) (hf3 : 1 ≤ k)
    (hfa : pf.action.type = ActionType.fill ∨ pf.action.type = ActionType.press)
    (hfv : pf.action.value = none)
    (hw1 : pw.loop.type = LoopType.whileL) (hw2 : pw.loop.untilCond = some u)
    (hw3 : 0 < (pw.limits.bind Limits.maxIterations).getD 20)
    (hwa : pw.action.type = ActionType.fill ∨ pw.action.type = ActionType.press)
    (hwv : pw.action.value = none)
    (hc0 : condOutcome env u 0 = Except.ok false)
    (hd1 : pd.loop.type = LoopType.doWhileL) (hd2 : pd.loop.untilCond = some ud)
    (hda : pd.action.type = ActionType.fill ∨ pd.action.type = ActionType.press)
    (hdv : pd.action.value = none) :
    (∃ s msg, handleRun env pf = (s, Except.error (Err.specError msg)) ∧
      handle env pf = Except.error (Err.specError msg) ∧
      s.iteration = 0 ∧ s.evidence = [] ∧ s.nInteractions = 0 ∧ s.nActs = 1 ∧
      (pf.action.type = ActionType.fill → msg = "Fill action requires a value") ∧
      (pf.action.type = ActionType.press → msg = "Press action requires a value")) ∧
    (∃ s msg, handleRun env pw = (s, Except.error (Err.specError msg)) ∧
      handle env pw = Except.error (Err.specError msg) ∧
      s.iteration = 0 ∧ s.evidence = [] ∧ s.nInteractions = 0 ∧ s.nActs = 1 ∧
      (pw.action.type = ActionType.fill → msg = "Fill action requires a value") ∧
      (pw.action.type = ActionType.press → msg = "Press action requires a value")) ∧
    (∃ s msg, handleRun env pd = (s, Except.error (Err.specError msg)) ∧
      handle env pd = Except.error (Err.specError msg) ∧
      s.iteration = 0 ∧ s.evidence = [] ∧ s.nInteractions = 0 ∧ s.nActs = 1 ∧
      (pd.action.type = ActionType.fill → msg = "Fill action requires a value") ∧
      (pd.action.type = ActionType.press → msg = "Press action requires a value")) := by
  refine ⟨?_, ?_, ?_⟩
  · obtain ⟨msg, hrun, hfm, hpm⟩ := runAction_missing_value env pf.action initialState
      (by rw [initialState_nActs]; exact hloc0) hfa hfv
    have hfl := forLoop_step_err env pf.action k initialState (bumpAct env initialState) _
      hrun (by simpa using hf3)
    have hfull : handleRun env pf
        = (bumpAct env initialState, Except.error (Err.specError msg)) := by
      rw [handleRun_for env pf k hf1 hf2, hfl]
    exact ⟨_, msg, hfull, by unfold handle; rw [hfull], rfl, rfl, rfl, rfl, hfm, hpm⟩
  · obtain ⟨msg, hrun, hfm, hpm⟩ := runAction_missing_value env pw.action
      (bumpCond env initialState)
      (by rw [bumpCond_nActs, initialState_nActs]; exact hloc0) hwa hwv
    have hc := evaluateCondition_eq env pw.loop initialState u hw2
    rw [initialState_nConds, hc0] at hc
    have hwl := whileLoop_step_actErr env pw.action pw.loop
      ((pw.limits.bind Limits.maxIterations).getD 20) initialState (bumpCond env initialState)
      (bumpAct env (bumpCond env initialState)) _ (by simpa using hw3) hc hrun
    have hfull : handleRun env pw
        = (bumpAct env (bumpCond env initialState), Except.error (Err.specError msg)) := by
      rw [handleRun_while env pw u hw1 hw2, hwl]
    exact ⟨_, msg, hfull, by unfold handle; rw [hfull], rfl, rfl, rfl, rfl, hfm, hpm⟩
  · obtain ⟨msg, hrun, hfm, hpm⟩ := runAction_missing_value env pd.action initialState
      (by rw [initialState_nActs]; exact hloc0) hda hdv
    have hdl := doWhileLoop_actErr env pd.action pd.loop
      ((pd.limits.bind Limits.maxIterations).getD 20) initialState (bumpAct env initialState)
      _ hrun
    have hfull : handleRun env pd
        = (bumpAct env initialState, Except.error (Err.specError msg)) := by
      rw [handleRun_doWhile env pd ud hd1 hd2, hdl]
    exact ⟨_, msg, hfull, by unfold handle; rw [hfull], rfl, rfl, rfl, rfl, hfm, hpm⟩

/-- Witness for the amended C8: a valueless fill action under a 2-iteration
`for` spec, a `while` spec with a false-first condition, and a `do-while`
spec. -/
theorem c8_amended_missing_value_fails_first_attempt_witness :
    (∃ s msg, handleRun envCondFalse (mkParams LoopType.forL (some 2) none fillNoValue none)
      = (s, Except.error (Err.specError msg)) ∧
      handle envCondFalse (mkParams LoopType.forL (some 2) none fillNoValue none)
        = Except.error (Err.specError msg) ∧
      s.iteration = 0 ∧ s.evidence = [] ∧ s.nInteractions = 0 ∧ s.nActs = 1 ∧
      ((mkParams LoopType.forL (some 2) none fillNoValue none).action.type = ActionType.fill →
        msg = "Fill action requires a value") ∧
      ((mkParams LoopType.forL (some 2) none fillNoValue none).action.type = ActionType.press →
        msg = "Press action requires a value")) ∧
    (∃ s msg, handleRun envCondFalse
        (mkParams LoopType.whileL none (some visibleCond) fillNoValue none)
      = (s, Except.error (Err.specError msg)) ∧
      handle envCondFalse (mkParams LoopType.whileL none (some visibleCond) fillNoValue none)
        = Except.error (Err.specError msg) ∧
      s.iteration = 0 ∧ s.evidence = [] ∧ s.nInteractions = 0 ∧ s.nActs = 1 ∧
      ((mkParams LoopType.whileL none (some visibleCond) fillNoValue none).action.type
          = ActionType.fill → msg = "Fill action requires a value") ∧
      ((mkParams LoopType.whileL none (some visibleCond) fillNoValue none).action.type
          = ActionType.press → msg = "Press action requires a value")) ∧
    (∃ s msg, handleRun envCondFalse
        (mkParams LoopType.doWhileL none (some visibleCond) fillNoValue none)
      = (s, Except.error (Err.specError msg)) ∧
      handle envCondFalse (mkParams LoopType.doWhileL none (some visibleCond) fillNoValue none)
        = Except.error (Err.specError msg) ∧
      s.iteration = 0 ∧ s.evidence = [] ∧ s.nInteractions = 0 ∧ s.nActs = 1 ∧
      ((mkParams LoopType.doWhileL none (some visibleCond) fillNoValue none).action.type
          = ActionType.fill → msg = "Fill action requires a value") ∧
      ((mkParams LoopType.doWhileL none (some visibleCond) fillNoValue none).action.type
          = ActionType.press → msg = "Press action requires a value")) := by
  exact c8_amended_missing_value_fails_first_attempt envCondFalse
    (mkParams LoopType.forL (some 2) none fillNoValue none)
    (mkParams LoopType.whileL none (some visibleCond) fillNoValue none)
    (mkParams LoopType.doWhileL none (some visibleCond) fillNoValue none)
    2 visibleCond visibleCond rfl rfl rfl (by omega) (Or.inl rfl) rfl
    rfl rfl (by decide) (Or.inl rfl) rfl rfl rfl rfl (Or.inl rfl) rfl

end RepeatAction
